import Mathlib

/-!
Verification of the Privacy-guard query gateway core.

This file shallowly embeds the core services of the repository
(`backend/app/services/sql_safe.py`, `rewrite_engine.py`, `risk_engine.py`,
`benchmarks.py`, `receipts.py`) as executable Lean definitions and proves or
refutes the frozen claims about them.

Modelling conventions:
* Python strings are modelled as `List Char` (`Chars`); the regular
  expressions of the source are implemented as dedicated scanners that
  mirror each pattern's backtracking behaviour (noted where it matters).
  All inputs of interest are ASCII, so the ASCII-only character classes
  below coincide with Python's `\w`, `\s`, `\d` on these inputs.
* Python `int` is `Int`/`Nat`; decimal literals (Python `float`) are kept
  as their literal text, which determines the float uniquely — no claim
  depends on float arithmetic on literal values.
* Database access (`Session`) is an oracle parameter: the store returns a
  cohort count and a distinct-count per parsed query.
* Cryptographic primitives (SHA-256, Ed25519, base64) from external
  libraries are abstract parameters; their standard correctness properties
  appear as explicit hypotheses where a claim needs them.
-/

set_option maxRecDepth 10000

namespace PrivacyGuard

abbrev Chars := List Char

/-- Python `\w` on ASCII input: `[A-Za-z0-9_]`. -/
def isWordChar (c : Char) : Bool := c.isAlpha || c.isDigit || c = '_'

/-- Python `\s` / `str.strip` whitespace on ASCII input. -/
def isPySpace (c : Char) : Bool :=
  c = ' ' || c = '\t' || c = '\n' || c = '\r' || c = '\x0b' || c = '\x0c'

def isDigitChar (c : Char) : Bool := c.isDigit

/-- `str.strip()`. -/
def stripChars (s : Chars) : Chars :=
  ((s.dropWhile isPySpace).reverse.dropWhile isPySpace).reverse

/-- One step of `re.sub(r"\s+", " ", ·)`: the flag records whether the
previous character was part of a whitespace run already replaced. -/
def collapseGo : Bool → Chars → Chars
  | _, [] => []
  | inRun, c :: cs =>
    if isPySpace c then
      if inRun then collapseGo true cs else ' ' :: collapseGo true cs
    else c :: collapseGo false cs

/-- Substring containment (used for the `;`, `--`, `/*`, `*/` rejections). -/
def containsSub (pat : Chars) : Chars → Bool
  | [] => pat.isEmpty
  | c :: cs => pat.isPrefixOf (c :: cs) || containsSub pat cs

/-- Case-insensitive literal match at the start of `s`; returns the rest. -/
def matchLit : Chars → Chars → Option Chars
  | [], s => some s
  | _ :: _, [] => none
  | p :: ps, c :: cs => if c.toLower = p.toLower then matchLit ps cs else none

/-- Case-insensitive substring search (e.g. `re.search(r"(?i)avg\(", s)`). -/
def containsSubCI (pat : Chars) : Chars → Bool
  | [] => pat.isEmpty
  | c :: cs => (matchLit pat (c :: cs)).isSome || containsSubCI pat cs

/-- `\b` between the previous character (`none` at the string edge) and a
word character that follows. -/
def boundaryOK (pre : Option Char) : Bool :=
  match pre with
  | none => true
  | some c => !(isWordChar c)

/-- `\b` between a word character and whatever follows. -/
def noWordAhead : Chars → Bool
  | [] => true
  | c :: _ => !(isWordChar c)

def digitsToNat (ds : Chars) : Nat :=
  ds.foldl (fun n c => 10 * n + (c.toNat - '0'.toNat)) 0

/-!  ### sql_safe.py — the restricted SQL parser  -/

def ALLOWED_TABLE : String := "patient_records"

def ALLOWED_AGGS : List String := ["avg", "sum", "count", "min", "max"]

def ALLOWED_FILTER_COLS : List String :=
  ["age", "sex", "cp", "age_band", "cp_group", "chol_level",
   "trestbps", "chol", "fbs", "thalach", "target"]

def OP_LIST : List String := ["=", "!=", "<", "<=", ">", ">="]

inductive SqlValue where
  /-- an integer literal -/
  | int (n : Int)
  /-- a decimal literal (Python stores `float(text)`; the literal text
  determines that float, and no claim computes with it) -/
  | dec (text : String)
  /-- a single-quoted string literal (quotes stripped) -/
  | str (s : String)
deriving DecidableEq, Repr

structure ParsedQuery where
  agg_fn : String
  agg_col : String
  filters : List (String × String × SqlValue)
deriving DecidableEq, Repr

/-- `_canonicalize`: reject `;`, `--`, `/*`, `*/`, then collapse whitespace
on the stripped string. -/
def _canonicalize (sql : Chars) : Except String Chars :=
  if containsSub [';'] sql || containsSub ['-', '-'] sql
      || containsSub ['/', '*'] sql || containsSub ['*', '/'] sql then
    .error "Comments/semicolons are not allowed"
  else
    .ok (collapseGo false (stripChars sql))

/-- The aggregate alternation `(avg|sum|count|min|max)`; no two
alternatives share a prefix, so ordered first-match is exact. -/
def matchAgg (s : Chars) : Option (String × Chars) :=
  match matchLit "avg".data s with
  | some r => some ("avg", r)
  | none =>
  match matchLit "sum".data s with
  | some r => some ("sum", r)
  | none =>
  match matchLit "count".data s with
  | some r => some ("count", r)
  | none =>
  match matchLit "min".data s with
  | some r => some ("min", r)
  | none =>
  match matchLit "max".data s with
  | some r => some ("max", r)
  | none => none

/-- `[a-zA-Z_][\w]*`, greedy. -/
def takeIdent : Chars → Option (Chars × Chars)
  | [] => none
  | c :: cs =>
    if c.isAlpha || c = '_' then
      some (c :: cs.takeWhile isWordChar, cs.dropWhile isWordChar)
    else none

/-- Tail of the main query regex: `([a-zA-Z_][\w]*)\s*(where\s+(.+))?$`.
Mirrors Python's backtracking: the greedy identifier may give back a
trailing `where` so the optional group can match (so
`from patient_recordswhere x = 1` parses with table `patient_records`). -/
def fromTail (s : Chars) : Option (Chars × Option Chars) :=
  match takeIdent s with
  | none => none
  | some (w, t) =>
    let t' := t.dropWhile isPySpace
    let full :=
      if t' = [] then some (w, (none : Option Chars))
      else
        match matchLit "where".data t' with
        | some r =>
          if r.takeWhile isPySpace ≠ [] ∧ r.dropWhile isPySpace ≠ [] then
            some (w, some (r.dropWhile isPySpace))
          else none
        | none => none
    match full with
    | some out => some out
    | none =>
      -- give back a trailing "where" from the identifier
      if (matchLit "where".data (w.drop (w.length - 5))).isSome
          ∧ 5 < w.length
          ∧ t.takeWhile isPySpace ≠ [] ∧ t.dropWhile isPySpace ≠ [] then
        some (w.take (w.length - 5), some (t.dropWhile isPySpace))
      else none

/-- The anchored main regex
`^select\s+(avg|sum|count|min|max)\s*\(\s*([a-zA-Z_][\w]*|\*)\s*\)\s+from\s+…$`
(case-insensitive).  Returns `(aggregate, column, table, where-clause?)`. -/
def matchTop (s : Chars) : Option (String × Chars × Chars × Option Chars) :=
  match matchLit "select".data s with
  | none => none
  | some r1 =>
    if r1.takeWhile isPySpace = [] then none
    else
      match matchAgg (r1.dropWhile isPySpace) with
      | none => none
      | some (agg, r3) =>
        match r3.dropWhile isPySpace with
        | '(' :: r5 =>
          let r6 := r5.dropWhile isPySpace
          let colRes : Option (Chars × Chars) :=
            match takeIdent r6 with
            | some p => some p
            | none => match r6 with
                      | '*' :: r => some (['*'], r)
                      | _ => none
          match colRes with
          | none => none
          | some (col, r7) =>
            match r7.dropWhile isPySpace with
            | ')' :: r9 =>
              if r9.takeWhile isPySpace = [] then none
              else
                match matchLit "from".data (r9.dropWhile isPySpace) with
                | none => none
                | some r10 =>
                  if r10.takeWhile isPySpace = [] then none
                  else
                    match fromTail (r10.dropWhile isPySpace) with
                    | none => none
                    | some (table, wh) => some (agg, col, table, wh)
            | _ => none
        | _ => none

/-- `re.search(r"(?i)\bor\b", where)`. -/
def searchWordOr : Option Char → Chars → Bool
  | _, [] => false
  | pre, c :: cs =>
    (boundaryOK pre &&
      (match matchLit "or".data (c :: cs) with
       | some r => noWordAhead r
       | none => false))
    || searchWordOr (some c) cs

/-- One separator of `re.split(r"(?i)\s+and\s+", ·)` at the current
position: a nonempty whitespace run, `and`, a nonempty whitespace run
(both maximal — shorter runs cannot be followed by the required literal).
Returns the text after the separator. -/
def andSepAt : Chars → Option Chars
  | [] => none
  | c :: cs =>
    if isPySpace c then
      match matchLit "and".data ((c :: cs).dropWhile isPySpace) with
      | some r2 =>
        if r2.takeWhile isPySpace = [] then none
        else some (r2.dropWhile isPySpace)
      | none => none
    else none

def splitAndGo : Nat → Chars → Chars → List Chars
  | 0, cur, s => [cur.reverse ++ s]
  | _ + 1, cur, [] => [cur.reverse]
  | f + 1, cur, c :: cs =>
    match andSepAt (c :: cs) with
    | some rest => cur.reverse :: splitAndGo f [] rest
    | none => splitAndGo f (c :: cur) cs

/-- `re.split(r"(?i)\s+and\s+", s)` (fuelled by `s.length`, which each
step strictly decreases by at least the consumed amount). -/
def splitAnd (s : Chars) : List Chars := splitAndGo s.length [] s

/-- `^'.*'$` with `.` not matching a newline. -/
def isQuotedLit (raw : Chars) : Bool :=
  match raw with
  | '\'' :: rest =>
    rest ≠ [] && raw.getLast? = some '\'' && !((raw.drop 1).dropLast.contains '\n')
  | _ => false

/-- `^-?\d+(\.\d+)?$`. -/
def isNumLit (raw : Chars) : Bool :=
  let body := match raw with
              | '-' :: r => r
              | r => r
  let ds := body.takeWhile isDigitChar
  let rest := body.dropWhile isDigitChar
  ds ≠ [] &&
    (rest = [] ||
      (match rest with
       | '.' :: fr => fr ≠ [] && fr.all isDigitChar
       | _ => false))

def intOfChars (raw : Chars) : Int :=
  match raw with
  | '-' :: r => -(digitsToNat r : Int)
  | r => (digitsToNat r : Int)

def parseValue (raw : Chars) : Except String SqlValue :=
  if isQuotedLit raw then
    let inner := (raw.drop 1).dropLast
    if inner.contains '\'' then
      .error "Embedded quotes not allowed in demo string literals"
    else .ok (.str (String.mk inner))
  else if isNumLit raw then
    if raw.contains '.' then .ok (.dec (String.mk raw))
    else .ok (.int (intOfChars raw))
  else .error "Value format not allowed"

/-- The operator alternation `(=|!=|<=|>=|<|>)`, tried in source order. -/
def matchOp (s : Chars) : Option (String × Chars) :=
  match s with
  | '=' :: r => some ("=", r)
  | '!' :: '=' :: r => some ("!=", r)
  | '<' :: '=' :: r => some ("<=", r)
  | '>' :: '=' :: r => some (">=", r)
  | '<' :: r => some ("<", r)
  | '>' :: r => some (">", r)
  | _ => none

/-- One WHERE conjunct: `^([a-zA-Z_][\w]*)\s*(=|!=|<=|>=|<|>)\s*(.+)$`
on the stripped part, followed by the allowlist and value checks,
in source order. -/
def parseCond (part : Chars) : Except String (String × String × SqlValue) :=
  let p := stripChars part
  match takeIdent p with
  | none => .error "Unsupported WHERE clause"
  | some (colC, r1) =>
    match matchOp (r1.dropWhile isPySpace) with
    | none => .error "Unsupported WHERE clause"
    | some (op, r3) =>
      let raw := r3.dropWhile isPySpace
      if raw = [] then .error "Unsupported WHERE clause"
      else
        let col := String.mk colC
        if col ∉ ALLOWED_FILTER_COLS then .error "Filter column not allowed"
        else if op ∉ OP_LIST then .error "Operator not allowed"
        else
          match parseValue (stripChars raw) with
          | .error e => .error e
          | .ok v => .ok (col, op, v)

/-- The `for p in parts` loop of `parse_aggregate_query`: parse each
conjunct in order, stopping at the first rejection. -/
def parseConds : List Chars → Except String (List (String × String × SqlValue))
  | [] => .ok []
  | p :: ps =>
    match parseCond p with
    | .error e => .error e
    | .ok f =>
      match parseConds ps with
      | .error e => .error e
      | .ok fs => .ok (f :: fs)

/-- `parse_aggregate_query`. -/
def parse_aggregate_query (sql : String) : Except String ParsedQuery :=
  match _canonicalize sql.data with
  | .error e => .error e
  | .ok s =>
    match matchTop s with
    | none => .error "Only single aggregate queries are allowed"
    | some (agg, col, table, wh) =>
      if agg ∉ ALLOWED_AGGS then .error "Aggregate not allowed"
      else if String.mk (table.map Char.toLower) ≠ ALLOWED_TABLE then
        .error "Only patient_records table is allowed"
      else
        match wh with
        | none => .ok ⟨agg, String.mk col, []⟩
        | some w =>
          if searchWordOr none w then .error "OR is not allowed in demo queries"
          else
            match parseConds (splitAnd w) with
            | .error e => .error e
            | .ok fs => .ok ⟨agg, String.mk col, fs⟩

/-- The columns mapped on `PatientRecord` in `models.py`.
`hasattr(PatientRecord, ·)` is true for each of these, but also for
further class attributes (dunders such as `__tablename__` and
`__init__`, and SQLAlchemy machinery such as `__table__`, `__mapper__`,
`_sa_class_manager`, `metadata`, `registry`) — an open-ended,
interpreter-dependent set.  The `hasattr` verdict therefore enters the
embedding as an oracle (`String → Bool`); this list is only the part of
it that `models.py` fixes. -/
def mappedColumns : List String :=
  ["id", "age", "sex", "cp", "trestbps", "chol", "fbs", "thalach", "target",
   "age_band", "cp_group", "chol_level"]

/-- `_col_expr`: resolve a column name or raise `SqlNotAllowed`;
`hasAttr` is the oracle for Python's `hasattr(PatientRecord, ·)`. -/
def _col_expr_check (hasAttr : String → Bool) (c : String) : Except String Unit :=
  if hasAttr c then .ok () else .error ("Unknown column: " ++ c)

/-- The column-resolution performed by `execute_aggregate` before any SQL
is built: the aggregate column (unless `count(*)`), then each filter
column via `_apply_filters`.  The actual database evaluation is beyond
the embedding; a claim about `execute_aggregate` raising concerns only
this resolution step. -/
def execute_aggregate_check (hasAttr : String → Bool) (pq : ParsedQuery) :
    Except String Unit := do
  if pq.agg_fn = "count" ∧ pq.agg_col = "*" then pure ()
  else _col_expr_check hasAttr pq.agg_col
  pq.filters.forM (fun f => _col_expr_check hasAttr f.1)

/-- A sample `hasattr(PatientRecord, ·)` verdict for witnesses: the
mapped columns plus a few of the class-level attributes.  Any concrete
oracle with `hasAttr "*" = false` would do — and every Python class
satisfies that, `*` being no identifier. -/
def demoHasAttr (c : String) : Bool :=
  c ∈ mappedColumns ++ ["__tablename__", "__table__", "__mapper__",
    "_sa_class_manager", "__init__", "metadata", "registry"]

/-!  ### rewrite_engine.py  -/

/-- `CP_GROUP.get(v, "MediumRiskSymptoms")`. -/
def CP_GROUP (v : Nat) : String :=
  if v = 0 ∨ v = 1 then "LowRiskSymptoms"
  else if v = 2 ∨ v = 3 then "MediumRiskSymptoms"
  else if v = 4 then "HighRiskSymptoms"
  else "MediumRiskSymptoms"

def digitChar (d : Nat) : Char := Char.ofNat (48 + d)

/-- Decimal rendering of a natural number (what Python's f-string
produces for a nonnegative int); fuelled structurally, `n + 1` digits
suffice. -/
def natToCharsGo : Nat → Nat → Chars
  | 0, _ => []
  | f + 1, n =>
    if n < 10 then [digitChar n]
    else natToCharsGo f (n / 10) ++ [digitChar (n % 10)]

def natToChars (n : Nat) : Chars := natToCharsGo (n + 1) n

def _age_to_band (age : Nat) (width : Nat := 10) : String :=
  let start := age / width * width
  String.mk (natToChars start ++ '-' :: natToChars (start + (width - 1)))

/-- Match `(?i)\b<key>\s*=\s*(\d+)\b` at the current position, given the
character just before it (`none` at the string start).  The greedy `\d+`
followed by `\b` is equivalent to taking the maximal digit run and
requiring a non-word continuation: any shorter run ends between two
digits, where `\b` fails.  Returns the captured value, the last matched
character (always a digit; it becomes the left context of the rest) and
the rest. -/
def keyEqNumAt (key : Chars) (pre : Option Char) (s : Chars) :
    Option (Nat × Char × Chars) :=
  if !boundaryOK pre then none
  else
    match matchLit key s with
    | none => none
    | some r1 =>
      match r1.dropWhile isPySpace with
      | '=' :: r3 =>
        if (r3.dropWhile isPySpace).takeWhile isDigitChar = [] then none
        else if noWordAhead ((r3.dropWhile isPySpace).dropWhile isDigitChar) then
          some (digitsToNat ((r3.dropWhile isPySpace).takeWhile isDigitChar),
            ((r3.dropWhile isPySpace).takeWhile isDigitChar).getLastD '0',
            (r3.dropWhile isPySpace).dropWhile isDigitChar)
        else none
      | _ => none

/-- `re.search(r"(?i)\b<key>\s*=\s*(\d+)\b", ·)`: first captured value. -/
def searchKeyEqNum (key : Chars) : Option Char → Chars → Option Nat
  | _, [] => none
  | pre, c :: cs =>
    match keyEqNumAt key pre (c :: cs) with
    | some (v, _, _) => some v
    | none => searchKeyEqNum key (some c) cs

/-- `re.sub(r"(?i)\b<key>\s*=\s*\d+\b", repl, ·)`: replace every
non-overlapping leftmost match.  Fuelled by the string length, which
bounds the number of steps (each step consumes at least one character). -/
def subKeyEqNumGo (key repl : Chars) : Nat → Option Char → Chars → Chars
  | 0, _, s => s
  | _ + 1, _, [] => []
  | f + 1, pre, c :: cs =>
    match keyEqNumAt key pre (c :: cs) with
    | some (_, lastc, rest) => repl ++ subKeyEqNumGo key repl f (some lastc) rest
    | none => c :: subKeyEqNumGo key repl f (some c) cs

def subKeyEqNum (key repl s : Chars) : Chars := subKeyEqNumGo key repl s.length none s

/-- `subKeyEqNumGo` run with exactly enough fuel; `subKeyEqNum` is this
at the string's own length. -/
def subFullKey (key repl : Chars) (pre : Option Char) (s : Chars) : Chars :=
  subKeyEqNumGo key repl s.length pre s

/-- Match `(?i)\bsex\s*=\s*[01]\b` at the current position. -/
def sexEqAt (pre : Option Char) (s : Chars) : Bool :=
  boundaryOK pre &&
  (match matchLit "sex".data s with
   | none => false
   | some r1 =>
     match r1.dropWhile isPySpace with
     | '=' :: r3 =>
       (match r3.dropWhile isPySpace with
        | c :: rest => (c = '0' || c = '1') && noWordAhead rest
        | [] => false)
     | _ => false)

def searchSexEq : Option Char → Chars → Bool
  | _, [] => false
  | pre, c :: cs => sexEqAt pre (c :: cs) || searchSexEq (some c) cs

/-- `select\s+chol\s+from` at the current position (the shared core of the
R1 search and substitution patterns; no word boundaries are involved). -/
def selCholFromCore (s : Chars) : Option Chars :=
  match matchLit "select".data s with
  | none => none
  | some r1 =>
    if r1.takeWhile isPySpace = [] then none
    else
      match matchLit "chol".data (r1.dropWhile isPySpace) with
      | none => none
      | some r3 =>
        if r3.takeWhile isPySpace = [] then none
        else matchLit "from".data (r3.dropWhile isPySpace)

/-- `re.search(r"(?i)select\s+chol\s+from\s+", ·)` (trailing `\s+`). -/
def searchSelCholFrom : Chars → Bool
  | [] => false
  | c :: cs =>
    (match selCholFromCore (c :: cs) with
     | some r => r.takeWhile isPySpace ≠ []
     | none => false)
    || searchSelCholFrom cs

/-- `re.sub(r"(?i)select\s+chol\s+from", "SELECT AVG(chol) FROM", ·)`
(no trailing `\s+` in the substitution pattern). -/
def subSelCholFromGo : Nat → Chars → Chars
  | 0, s => s
  | _ + 1, [] => []
  | f + 1, c :: cs =>
    match selCholFromCore (c :: cs) with
    | some rest => "SELECT AVG(chol) FROM".data ++ subSelCholFromGo f rest
    | none => c :: subSelCholFromGo f cs

def subSelCholFrom (s : Chars) : Chars := subSelCholFromGo s.length s

/-- First match of `(?is)\bwhere\b\s+(.*)$`: returns the text before the
match and the captured group (the clause after the maximal whitespace
run, possibly empty). -/
def findWhereGo : Option Char → Chars → Chars → Option (Chars × Chars)
  | _, _, [] => none
  | pre, acc, c :: cs =>
    (if boundaryOK pre then
      match matchLit "where".data (c :: cs) with
      | some r =>
        if r.takeWhile isPySpace ≠ [] then some (acc.reverse, r.dropWhile isPySpace)
        else findWhereGo (some c) (c :: acc) cs
      | none => findWhereGo (some c) (c :: acc) cs
    else findWhereGo (some c) (c :: acc) cs)

/-- `re.fullmatch(r"(?i)sex\s*=\s*[^\s]+", p)`: after `sex`, optional
whitespace, `=`, optional whitespace, the remainder must be nonempty and
contain no whitespace. -/
def sexPredFullmatch (p : Chars) : Bool :=
  match matchLit "sex".data p with
  | none => false
  | some r1 =>
    match r1.dropWhile isPySpace with
    | '=' :: r3 =>
      let tail := r3.dropWhile isPySpace
      tail ≠ [] && tail.all (fun c => !isPySpace c)
    | _ => false

def joinAnd : List Chars → Chars
  | [] => []
  | [p] => p
  | p :: ps => p ++ " AND ".data ++ joinAnd ps

/-- `rewrite_engine._drop_predicate` (the engine only ever drops the
`sex` predicate, so the `field` argument is specialised to `sex`). -/
def _drop_predicate (sql : Chars) : Chars :=
  let s := stripChars sql
  match findWhereGo none [] s with
  | none => s
  | some (pre, clause) =>
    let parts := ((splitAnd clause).map stripChars).filter (fun p => p ≠ [])
    let kept := parts.filter (fun p => !sexPredFullmatch p)
    if kept ≠ [] then stripChars (pre ++ "WHERE ".data ++ joinAnd kept)
    else stripChars pre

structure Factor where
  code : String
  severity : String
deriving DecidableEq, Repr

/-- The analysis dict produced by `analyze_sql` (diagnostic `evidence`
payloads are not modelled; no claim refers to them). -/
structure AnalysisR where
  risk_score : Int
  risk_level : String
  k_est : Int
  l_est : Int
  decision : String
  factors : List Factor
deriving DecidableEq, Repr

structure RewriteOut where
  rewritten_sql : String
  applied_rules : List String
deriving DecidableEq, Repr

/-- R1 block of `propose_rewrite`: chol raw -> AVG(chol). -/
def r1Stage (x : Chars × List String) : Chars × List String :=
  if searchSelCholFrom x.1 && !containsSubCI "avg(".data x.1 then
    (subSelCholFrom x.1, x.2 ++ ["R1"])
  else x

/-- R2 block: first `age = <int>` determines the band; every match is
replaced (Python `re.sub` replaces all occurrences). -/
def r2Stage (x : Chars × List String) : Chars × List String :=
  match searchKeyEqNum "age".data none x.1 with
  | some age =>
    (subKeyEqNum "age".data
      ("age_band = '".data ++ (_age_to_band age).data ++ ['\'']) x.1,
     x.2 ++ ["R2"])
  | none => x

/-- R3' block: first `cp = <int>` determines the group; every match is
replaced. -/
def r3Stage (x : Chars × List String) : Chars × List String :=
  match searchKeyEqNum "cp".data none x.1 with
  | some v =>
    (subKeyEqNum "cp".data
      ("cp_group = '".data ++ (CP_GROUP v).data ++ ['\'']) x.1,
     x.2 ++ ["R3'"])
  | none => x

/-- R4 block: drop the sex predicate if enabled, the analysis signalled
risk, and a `sex = 0|1` predicate is present. -/
def r4Stage (analysis : AnalysisR) (enable_drop_predicate : Bool)
    (x : Chars × List String) : Chars × List String :=
  if enable_drop_predicate
      && (analysis.decision = "REWRITE"
          ∨ "SMALL_GROUP" ∈ analysis.factors.map Factor.code
          ∨ "LOW_DIVERSITY" ∈ analysis.factors.map Factor.code)
      && searchSexEq none x.1 then
    if _drop_predicate x.1 ≠ x.1 then (_drop_predicate x.1, x.2 ++ ["R4"]) else x
  else x

/-- `propose_rewrite` (rules R1, R2, R3', R4 applied in source order to
the stripped SQL, accumulating `applied_rules`). -/
def propose_rewrite (sql : String) (analysis : AnalysisR)
    (enable_drop_predicate : Bool := true) : RewriteOut :=
  match r4Stage analysis enable_drop_predicate
      (r3Stage (r2Stage (r1Stage (stripChars sql.data, [])))) with
  | (s, applied) => ⟨String.mk s, applied⟩

/-!  ### risk_engine.py  -/

/-- The store seen by `analyze_sql`: absent (`db=None`), failing (any
exception from the two queries), or a pair of pure query evaluators
(cohort count and distinct `chol_level` count). -/
inductive Db where
  | none
  | err (msg : String)
  | ok (count : ParsedQuery → Nat) (distinct : ParsedQuery → Nat)

def K_MIN_DEFAULT : Int := 5
def L_MIN_DEFAULT : Int := 2

/-- The body of `analyze_sql` after the store calls succeed (or are
defaulted): factor accumulation, score, level and decision. -/
def analyzeCore (lower : Chars) (k_est l_est : Nat) (k_min l_min : Int) : AnalysisR :=
  let fs1 : List Factor × Int :=
    if (k_est : Int) < k_min then ([⟨"SMALL_GROUP", "HIGH"⟩], 45)
    else if k_est < 10 then ([⟨"SMALL_GROUP", "MEDIUM"⟩], 20)
    else ([], 0)
  let fs2 : List Factor × Int :=
    if (l_est : Int) < l_min then (fs1.1 ++ [⟨"LOW_DIVERSITY", "MEDIUM"⟩], fs1.2 + 20)
    else fs1
  -- `re.search(r"\bage\s*=\s*\d+\b", lower)`: the pattern is lower-case and
  -- the input is lower-cased, so the case-insensitive scanner coincides.
  let fs3 : List Factor × Int :=
    if (searchKeyEqNum "age".data none lower).isSome then
      (fs2.1 ++ [⟨"EXACT_AGE_SLICE", "LOW"⟩], fs2.2 + 10)
    else fs2
  let score := max 0 (min 100 fs3.2)
  let level := if score ≥ 70 then "HIGH" else if score ≥ 35 then "MEDIUM" else "LOW"
  let decision :=
    if (k_est : Int) < k_min ∨ (l_est : Int) < l_min ∨ score ≥ 35 then "REWRITE"
    else "ALLOW"
  ⟨score, level, (k_est : Int), (l_est : Int), decision, fs3.1⟩

/-- `analyze_sql`. -/
def analyze_sql (sql : String) (db : Db)
    (k_min : Int := K_MIN_DEFAULT) (l_min : Int := L_MIN_DEFAULT) : AnalysisR :=
  let s := stripChars sql.data
  let lower := s.map Char.toLower
  match parse_aggregate_query (String.mk s) with
  | .error _ => ⟨95, "HIGH", 0, 0, "BLOCK", [⟨"SQL_NOT_ALLOWED", "HIGH"⟩]⟩
  | .ok pq =>
    match db with
    | .err _ => ⟨80, "HIGH", 0, 0, "REWRITE", [⟨"DB_NOT_READY", "HIGH"⟩]⟩
    | .none => analyzeCore lower 10 2 k_min l_min
    | .ok count distinct => analyzeCore lower (count pq) (distinct pq) k_min l_min

/-!  ### benchmarks.py — the minimal-IL lattice search  -/

/-- `benchmarks._rewrite_age`. -/
def _rewrite_age (sql : Chars) : Chars :=
  match searchKeyEqNum "age".data none sql with
  | none => sql
  | some age =>
    subKeyEqNum "age".data ("age_band = '".data ++ (_age_to_band age).data ++ ['\'']) sql

/-- `benchmarks._rewrite_cp`. -/
def _rewrite_cp (sql : Chars) : Chars :=
  match searchKeyEqNum "cp".data none sql with
  | none => sql
  | some v =>
    subKeyEqNum "cp".data ("cp_group = '".data ++ (CP_GROUP v).data ++ ['\'']) sql

/-- `benchmarks._drop_predicate` (returns the applied-rule list; unlike
the rewrite-engine variant it does not strip the recombined result). -/
def bench_drop_predicate (sql : Chars) : Chars × List String :=
  let s := stripChars sql
  match findWhereGo none [] s with
  | none => (s, [])
  | some (pre, clause) =>
    let parts := ((splitAnd clause).map stripChars).filter (fun p => p ≠ [])
    let kept := parts.filter (fun p => !sexPredFullmatch p)
    let dropped := parts.any sexPredFullmatch
    if !dropped then (s, [])
    else if kept ≠ [] then (pre ++ "WHERE ".data ++ joinAnd kept, ["R4"])
    else (stripChars pre, ["R4"])

/-- Match `(?i)\bage_band\s*=\s*'\d+-\d+'` at the current position. -/
def ageBandLitAt (pre : Option Char) (s : Chars) : Bool :=
  boundaryOK pre &&
  (match matchLit "age_band".data s with
   | none => false
   | some r1 =>
     match r1.dropWhile isPySpace with
     | '=' :: r3 =>
       (match r3.dropWhile isPySpace with
        | '\'' :: r5 =>
          (r5.takeWhile isDigitChar ≠ []) &&
          (match r5.dropWhile isDigitChar with
           | '-' :: r7 =>
             (r7.takeWhile isDigitChar ≠ []) &&
             (match r7.dropWhile isDigitChar with
              | '\'' :: _ => true
              | _ => false)
           | _ => false)
        | _ => false)
     | _ => false)

def searchAgeBandLit : Option Char → Chars → Bool
  | _, [] => false
  | pre, c :: cs => ageBandLitAt pre (c :: cs) || searchAgeBandLit (some c) cs

/-- Match `(?i)\bcp_group\s*=\s*'[^']+'` at the current position. -/
def cpGroupLitAt (pre : Option Char) (s : Chars) : Bool :=
  boundaryOK pre &&
  (match matchLit "cp_group".data s with
   | none => false
   | some r1 =>
     match r1.dropWhile isPySpace with
     | '=' :: r3 =>
       (match r3.dropWhile isPySpace with
        | '\'' :: r5 =>
          (r5.takeWhile (fun c => c ≠ '\'') ≠ []) &&
          (match r5.dropWhile (fun c => c ≠ '\'') with
           | '\'' :: _ => true
           | _ => false)
        | _ => false)
     | _ => false)

def searchCpGroupLit : Option Char → Chars → Bool
  | _, [] => false
  | pre, c :: cs => cpGroupLitAt pre (c :: cs) || searchCpGroupLit (some c) cs

/-- `_info_loss`, in integer tenths.  The source computes with the floats
0.6, 0.4, 0.3 (and the unsafe penalty 1.0); every strict comparison made
by the search separates values whose nominal difference is at least 0.1 —
far beyond double rounding error — and equal nominal values are computed
by the same float expression on both sides, so the integer-tenths model
induces exactly the ranking of the source. -/
def _info_loss_tenths (raw finalq : Chars) : Nat :=
  (if (searchKeyEqNum "age".data none raw).isSome && searchAgeBandLit none finalq
   then 6 else 0)
  + (if (searchKeyEqNum "cp".data none raw).isSome && searchCpGroupLit none finalq
     then 4 else 0)
  + (if searchSexEq none raw && !searchSexEq none finalq then 3 else 0)

structure Scored where
  score : Nat
  sql : Chars
  rules : List String
  a : AnalysisR
deriving Repr

def insertStable (x : Scored) : List Scored → List Scored
  | [] => [x]
  | y :: ys => if y.score ≤ x.score then y :: insertStable x ys else x :: y :: ys

/-- Python's stable `list.sort(key = fun x => x[0])`: equal keys keep
their insertion order. -/
def stableSortByScore (l : List Scored) : List Scored :=
  l.foldl (fun acc x => insertStable x acc) []

/-- De-duplication keyed by the stripped SQL, preserving first
occurrences in order. -/
def dedupGo (seen : List Chars) : List (Chars × List String) → List (Chars × List String)
  | [] => []
  | (s, r) :: rest =>
    let key := stripChars s
    if key ∈ seen then dedupGo seen rest
    else (s, r) :: dedupGo (key :: seen) rest

/-- The candidate lattice built by `_pick_minimal_safe_rewrite`, in source
insertion order, after de-duplication. -/
def pickCandidates (raw : Chars) (enable_drop_predicate : Bool) :
    List (Chars × List String) :=
  let has_age := (searchKeyEqNum "age".data none raw).isSome
  let has_cp := (searchKeyEqNum "cp".data none raw).isSome
  let has_sex := searchSexEq none raw
  let base : List (Chars × List String) :=
    [(raw, [])]
    ++ (if has_age then [(_rewrite_age raw, ["R2"])] else [])
    ++ (if has_cp then [(_rewrite_cp raw, ["R3'"])] else [])
    ++ (if has_age && has_cp then
          [(_rewrite_age (_rewrite_cp raw), ["R3'", "R2"])] else [])
  let withDrop :=
    base ++
      (if enable_drop_predicate && has_sex then
        (let dr := bench_drop_predicate raw
         if dr.2 ≠ [] then
           [(dr.1, dr.2)]
           ++ (if has_age then [(_rewrite_age dr.1, dr.2 ++ ["R2"])] else [])
           ++ (if has_cp then [(_rewrite_cp dr.1, dr.2 ++ ["R3'"])] else [])
           ++ (if has_age && has_cp then
                 [(_rewrite_age (_rewrite_cp dr.1), dr.2 ++ ["R3'", "R2"])] else [])
         else [])
      else [])
  dedupGo [] withDrop

/-- The scoring step of `_pick_minimal_safe_rewrite`:
`score = (0.0 if safe else 1.0) + IL`, in tenths. -/
def scoreCandidate (db : Db) (k_min l_min : Int) (raw : Chars)
    (cand : Chars × List String) : Scored :=
  let a := analyze_sql (String.mk cand.1) db k_min l_min
  let il := _info_loss_tenths raw cand.1
  let ok := k_min ≤ a.k_est ∧ l_min ≤ a.l_est ∧ a.decision = "ALLOW"
  ⟨(if ok then 0 else 10) + il, cand.1, cand.2, a⟩

/-- `_pick_minimal_safe_rewrite`. -/
def _pick_minimal_safe_rewrite (db : Db) (raw_sql : String)
    (k_min l_min : Int) (enable_drop_predicate : Bool := true) :
    String × List String :=
  let raw := raw_sql.data
  let scored := (pickCandidates raw enable_drop_predicate).map
    (scoreCandidate db k_min l_min raw)
  match stableSortByScore scored with
  | [] => (raw_sql, [])   -- unreachable: the raw query is always a candidate
  | best :: _ => (String.mk best.sql, best.rules)

/-!  ### A concrete store instance

`Db.ok` consumes two pure evaluators.  For counterexamples we instantiate
them with an explicit table whose derived columns (`age_band`,
`cp_group`, `chol_level`) are consistent with the ingest script's
derivations, and whose count/distinct semantics follow §6.2 of the spec.
-/

structure Row where
  age : Int
  sex : Int
  cp : Int
  chol : Int
  age_band : String
  cp_group : String
  chol_level : String
deriving DecidableEq, Repr

def cmpInt (x : Int) (op : String) (n : Int) : Bool :=
  if op = "=" then x = n
  else if op = "!=" then x ≠ n
  else if op = "<" then x < n
  else if op = "<=" then x ≤ n
  else if op = ">" then x > n
  else if op = ">=" then x ≥ n
  else false

/-- Filter evaluation over a demo row (covering the column/literal
combinations the demo queries use). -/
def evalFilter (r : Row) (f : String × String × SqlValue) : Bool :=
  match f with
  | (c, op, v) =>
    let intCol : Option Int :=
      if c = "age" then some r.age
      else if c = "sex" then some r.sex
      else if c = "cp" then some r.cp
      else if c = "chol" then some r.chol
      else none
    let strCol : Option String :=
      if c = "age_band" then some r.age_band
      else if c = "cp_group" then some r.cp_group
      else if c = "chol_level" then some r.chol_level
      else none
    match intCol, v with
    | some x, .int n => cmpInt x op n
    | _, _ =>
      match strCol, v with
      | some sc, .str sv => (op = "=" && sc = sv) || (op = "!=" && sc ≠ sv)
      | _, _ => false

/-- A dataset in which the cohort `age = 63 ∧ sex = 1 ∧ cp = 2` is tiny
(2 rows) while widening to `age_band = '60-69' ∧ cp_group ∈ {2,3}` gives
8 rows with three distinct `chol_level` buckets. -/
def demoRows : List Row :=
  [⟨63, 1, 2, 200, "60-69", "MediumRiskSymptoms", "BorderlineHigh"⟩,
   ⟨63, 1, 2, 210, "60-69", "MediumRiskSymptoms", "BorderlineHigh"⟩,
   ⟨61, 1, 3, 150, "60-69", "MediumRiskSymptoms", "Normal"⟩,
   ⟨62, 1, 3, 250, "60-69", "MediumRiskSymptoms", "High"⟩,
   ⟨64, 1, 3, 150, "60-69", "MediumRiskSymptoms", "Normal"⟩,
   ⟨65, 1, 3, 250, "60-69", "MediumRiskSymptoms", "High"⟩,
   ⟨66, 1, 3, 150, "60-69", "MediumRiskSymptoms", "Normal"⟩,
   ⟨67, 1, 3, 250, "60-69", "MediumRiskSymptoms", "High"⟩]

def demoCohort (pq : ParsedQuery) : List Row :=
  demoRows.filter (fun r => pq.filters.all (evalFilter r))

def demoCount (pq : ParsedQuery) : Nat := (demoCohort pq).length

def demoDistinct (pq : ParsedQuery) : Nat :=
  ((demoCohort pq).map Row.chol_level).dedup.length

def demoDb : Db := Db.ok demoCount demoDistinct

/-!  ### receipts.py

JSON values are a mutual inductive (objects keep insertion order, as
Python dicts do); `_canonical_json` sorts keys at every depth and uses
`","`/`":"` separators.  SHA-256, Ed25519 and base64 are externally
provided primitives, abstracted as `CryptoPrims`.
-/

mutual
inductive Jx where
  | null
  | bool (b : Bool)
  | num (n : Int)
  | str (s : String)
  | arr (xs : JxList)
  | obj (kvs : JxObj)
inductive JxList where
  | nil
  | cons (x : Jx) (xs : JxList)
inductive JxObj where
  | nil
  | cons (k : String) (v : Jx) (kvs : JxObj)
end
deriving instance DecidableEq for Jx
deriving instance DecidableEq for JxList
deriving instance DecidableEq for JxObj

def hexDigit (n : Nat) : Char :=
  if n < 10 then Char.ofNat ('0'.toNat + n) else Char.ofNat ('a'.toNat + (n - 10))

def hex4 (n : Nat) : String :=
  String.mk [hexDigit (n / 4096 % 16), hexDigit (n / 256 % 16),
             hexDigit (n / 16 % 16), hexDigit (n % 16)]

/-- `json.dumps` string escaping with `ensure_ascii=False`: only `"`,
`\` and control characters are escaped. -/
def jsonEscChar (c : Char) : String :=
  if c = '"' then "\\\""
  else if c = '\\' then "\\\\"
  else if c = '\n' then "\\n"
  else if c = '\t' then "\\t"
  else if c = '\r' then "\\r"
  else if c = '\x08' then "\\b"
  else if c = '\x0c' then "\\f"
  else if c.toNat < 32 then "\\u" ++ hex4 c.toNat
  else String.singleton c

def jsonQuote (s : String) : String :=
  "\"" ++ String.join (s.data.map jsonEscChar) ++ "\""

/-- Lexicographic code-point comparison (Python string `<=`). -/
def charsLe : Chars → Chars → Bool
  | [], _ => true
  | _ :: _, [] => false
  | a :: as, b :: bs =>
    if a.toNat < b.toNat then true
    else if a.toNat = b.toNat then charsLe as bs
    else false

/-- Insert into a key-sorted object (Python `sort_keys=True` compares
strings by code points). -/
def objInsert (k : String) (v : Jx) : JxObj → JxObj
  | .nil => .cons k v .nil
  | .cons k' v' rest =>
    if charsLe k'.data k.data then .cons k' v' (objInsert k v rest)
    else .cons k v (.cons k' v' rest)

def sortObj : JxObj → JxObj
  | .nil => .nil
  | .cons k v rest => objInsert k v (sortObj rest)

-- Sort object keys at every depth (the effect of `sort_keys=True`).
mutual
def sortAllJx : Jx → Jx
  | .null => .null
  | .bool b => .bool b
  | .num n => .num n
  | .str s => .str s
  | .arr xs => .arr (sortAllList xs)
  | .obj kvs => .obj (sortObj (sortAllObj kvs))
def sortAllList : JxList → JxList
  | .nil => .nil
  | .cons x xs => .cons (sortAllJx x) (sortAllList xs)
def sortAllObj : JxObj → JxObj
  | .nil => .nil
  | .cons k v rest => .cons k (sortAllJx v) (sortAllObj rest)
end

-- Serialization with `","`/`":"` separators (key order as stored).
mutual
def emitJx : Jx → String
  | .null => "null"
  | .bool b => if b then "true" else "false"
  | .num n => toString n
  | .str s => jsonQuote s
  | .arr xs => "[" ++ emitList xs ++ "]"
  | .obj kvs => "\x7b" ++ emitObj kvs ++ "\x7d"
def emitList : JxList → String
  | .nil => ""
  | .cons x .nil => emitJx x
  | .cons x (.cons y ys) => emitJx x ++ "," ++ emitList (.cons y ys)
def emitObj : JxObj → String
  | .nil => ""
  | .cons k v .nil => jsonQuote k ++ ":" ++ emitJx v
  | .cons k v (.cons k' v' rest) =>
    jsonQuote k ++ ":" ++ emitJx v ++ "," ++ emitObj (.cons k' v' rest)
end

/-- `_canonical_json`: keys sorted at every depth, compact separators,
non-ASCII unescaped. -/
def canonJx (j : Jx) : String := emitJx (sortAllJx j)

def objGet : JxObj → String → Option Jx
  | .nil, _ => none
  | .cons k v rest, key => if k = key then some v else objGet rest key

/-- `d[k] = v`: replace in place when the key exists, else append. -/
def objSet : JxObj → String → Jx → JxObj
  | .nil, k, v => .cons k v .nil
  | .cons k' v' rest, k, v =>
    if k' = k then .cons k' v rest else .cons k' v' (objSet rest k v)

/-- `d.pop(k, None)`. -/
def objPop : JxObj → String → JxObj
  | .nil, _ => .nil
  | .cons k' v rest, k => if k' = k then rest else .cons k' v (objPop rest k)

/-- Apply `f` to the value stored under `k` (if any). -/
def objUpdate (kvs : JxObj) (k : String) (f : Jx → Jx) : JxObj :=
  match kvs with
  | .nil => .nil
  | .cons k' v rest =>
    if k' = k then .cons k' (f v) rest else .cons k' v (objUpdate rest k f)

/-- The external cryptographic primitives of `receipts.py`: SHA-256 hex
digest, hex-to-bytes, the module's Ed25519 private-key `sign`, the
matching public-key `verify`, and base64. -/
structure CryptoPrims where
  sha256hex : String → String
  hexbytes : String → List Nat
  sign : List Nat → List Nat
  ed_verify : List Nat → List Nat → Bool
  b64encode : List Nat → String
  b64decode : String → List Nat

/-- The arguments of one `issue_receipt` call (`ts` is the wall-clock
timestamp string; the `analysis` dict is passed as the five fields the
source reads from it). -/
structure IssueIn where
  ts : String
  raw_sql : String
  rewritten_sql : Option String
  decision : String
  risk_score : Int
  risk_level : String
  k_est : Int
  l_est : Int
  factors : Jx
  applied_rules : List String
  result_summary : Jx

def optStrJx : Option String → Jx
  | none => .null
  | some s => .str s

def strListJx (rs : List String) : Jx :=
  .arr (rs.foldr (fun s acc => .cons (.str s) acc) .nil)

/-- The receipt payload before hashing, in source insertion order. -/
def issuePayload (st : Option String) (inp : IssueIn) : JxObj :=
  .cons "receipt_version" (.str "1.0") <|
  .cons "timestamp_utc" (.str inp.ts) <|
  .cons "prev_receipt_hash" (optStrJx st) <|
  .cons "query" (.obj (.cons "raw_sql" (.str inp.raw_sql) <|
                       .cons "rewritten_sql" (optStrJx inp.rewritten_sql) .nil)) <|
  .cons "policy" (.obj (.cons "k_min" (.num 5) <|
                        .cons "l_min" (.num 2) <|
                        .cons "dp" (.obj (.cons "enabled" (.bool false) .nil)) .nil)) <|
  .cons "risk_assessment" (.obj (.cons "risk_score" (.num inp.risk_score) <|
                                 .cons "risk_level" (.str inp.risk_level) <|
                                 .cons "k_est" (.num inp.k_est) <|
                                 .cons "l_est" (.num inp.l_est) <|
                                 .cons "factors" inp.factors .nil)) <|
  .cons "rewrite" (.obj (.cons "decision" (.str inp.decision) <|
                         .cons "applied_rules" (strListJx inp.applied_rules) .nil)) <|
  .cons "execution" (.obj (.cons "result_summary" inp.result_summary .nil)) <|
  .cons "signature" (.obj (.cons "algo" (.str "ed25519") <|
                           .cons "public_key_id" (.str "demo_key_01") .nil)) .nil

/-- `issue_receipt`: build the payload, hash its canonical encoding, sign
the raw digest bytes, append `receipt_hash` and `signature.sig`, advance
the module-level `_prev_hash`.  The state is threaded explicitly. -/
def issue_receipt (C : CryptoPrims) (st : Option String) (inp : IssueIn) :
    Jx × Option String :=
  let payload := issuePayload st inp
  let canon := canonJx (.obj payload)
  let receipt_hash := C.sha256hex canon
  let sig := C.sign (C.hexbytes receipt_hash)
  let withHash := objSet payload "receipt_hash" (.str ("sha256:" ++ receipt_hash))
  let receipt := objUpdate withHash "signature" (fun j =>
    match j with
    | .obj so => .obj (objSet so "sig" (.str ("base64:" ++ C.b64encode sig)))
    | j => j)
  (.obj receipt, some ("sha256:" ++ receipt_hash))

structure VerifyOut where
  valid : Bool
  reason : String
  recomputed : Option String
deriving DecidableEq, Repr

/-- `s.split(pat)[1]`: the segment after the first occurrence of `pat`,
up to the next occurrence (or the end). -/
def afterFirstSub (pat : Chars) : Chars → Option Chars
  | [] => none
  | c :: cs =>
    if pat.isPrefixOf (c :: cs) then some ((c :: cs).drop pat.length)
    else afterFirstSub pat cs

def beforeFirstSub (pat : Chars) : Chars → Chars
  | [] => []
  | c :: cs =>
    if pat.isPrefixOf (c :: cs) then [] else c :: beforeFirstSub pat cs

def pySplitSecond (pat s : Chars) : Chars :=
  match afterFirstSub pat s with
  | none => []
  | some rest => beforeFirstSub pat rest

/-- `verify_receipt`.  The deep copy `json.loads(json.dumps(receipt))`
is the identity on the JSON model; exceptions raised by a non-dict
receipt or by a failing Ed25519 `verify` are the source's caught-and-
reported error paths. -/
def verify_receipt (C : CryptoPrims) (receipt : Jx) : VerifyOut :=
  match receipt with
  | .obj kvs =>
    let sig_b64 : String :=
      match objGet kvs "signature" with
      | some (.obj so) =>
        (match objGet so "sig" with
         | some (.str s) => s
         | _ => "")
      | _ => ""
    if !("base64:".data.isPrefixOf sig_b64.data) then ⟨false, "Missing signature", none⟩
    else
      let sig := C.b64decode (String.mk (pySplitSecond "base64:".data sig_b64.data))
      let claimed : String :=
        match objGet kvs "receipt_hash" with
        | some (.str s) => s
        | _ => ""
      if !("sha256:".data.isPrefixOf claimed.data) then ⟨false, "Missing receipt_hash", none⟩
      else
        let copy1 := objPop kvs "receipt_hash"
        let copy2 := objUpdate copy1 "signature" (fun j =>
          match j with
          | .obj so => .obj (objPop so "sig")
          | j => j)
        let recomputed := C.sha256hex (canonJx (.obj copy2))
        if ("sha256:" ++ recomputed) ≠ claimed then
          ⟨false, "Hash mismatch", some ("sha256:" ++ recomputed)⟩
        else if C.ed_verify (C.hexbytes recomputed) sig then ⟨true, "OK", none⟩
        else ⟨false, "Verification error: InvalidSignature", none⟩
  | _ => ⟨false, "Verification error: AttributeError", none⟩

/-- Successive `issue_receipt` calls within one process instance,
threading `_prev_hash`. -/
def chainIssue (C : CryptoPrims) : Option String → List IssueIn → List Jx × Option String
  | st, [] => ([], st)
  | st, i :: rest =>
    let out := issue_receipt C st i
    let tail := chainIssue C out.2 rest
    (out.1 :: tail.1, tail.2)

/-- Field access on a receipt (receipts are always JSON objects). -/
def receiptField (r : Jx) (k : String) : Option Jx :=
  match r with
  | .obj kvs => objGet kvs k
  | _ => none

/-- A concrete instantiation of the cryptographic primitives, used to
evaluate witnesses (any primitives satisfying the stated hypotheses do). -/
def demoCrypto : CryptoPrims where
  sha256hex s := "h" ++ toString s.length
  hexbytes s := s.data.map Char.toNat
  sign m := m ++ [1]
  ed_verify m s := s = m ++ [1]
  b64encode bs := String.mk (bs.map (fun b => Char.ofNat (b + 65)))
  b64decode s := s.data.map (fun c => c.toNat - 65)

instance {ε α} [DecidableEq ε] [DecidableEq α] : DecidableEq (Except ε α) := fun a b =>
  match a, b with
  | .error x, .error y =>
    if h : x = y then .isTrue (by rw [h])
    else .isFalse (fun hc => by cases hc; exact h rfl)
  | .ok x, .ok y =>
    if h : x = y then .isTrue (by rw [h])
    else .isFalse (fun hc => by cases hc; exact h rfl)
  | .error _, .ok _ => .isFalse (fun hc => by cases hc)
  | .ok _, .error _ => .isFalse (fun hc => by cases hc)

/-!  ## Claims  -/

/-- Sample issue-call arguments, used by witnesses. -/
def demoIssue1 : IssueIn :=
  ⟨"2026-01-01T00:00:00Z", "SELECT AVG(chol) FROM patient_records", none, "ALLOW",
   0, "LOW", 303, 3, .arr .nil, [],
   .obj (.cons "rows" (.num 1)
     (.cons "aggregates" (.arr (.cons (.str "AVG(chol)") .nil)) .nil))⟩

def demoIssue2 : IssueIn :=
  ⟨"2026-01-01T00:00:01Z",
   "SELECT AVG(chol) FROM patient_records WHERE age = 63 AND sex = 1 AND cp = 4",
   some "SELECT AVG(chol) FROM patient_records WHERE age_band = '60-69' AND cp_group = 'HighRiskSymptoms'",
   "REWRITE_AND_EXECUTE", 20, "LOW", 8, 3, .arr .nil, ["R2", "R3'", "R4"], .null⟩

lemma isPrefixOf_append_self (l m : List Char) : l.isPrefixOf (l ++ m) = true := by
  induction l with
  | nil => simp [List.isPrefixOf]
  | cons c cs ih => simp [List.isPrefixOf, ih]

lemma startswith_append (p s : String) : p.data.isPrefixOf (p ++ s).data = true := by
  rw [String.data_append]; exact isPrefixOf_append_self _ _

lemma beforeFirstSub_of_not_contains (pat s : Chars) (h : containsSub pat s = false) :
    beforeFirstSub pat s = s := by
  induction s with
  | nil => rfl
  | cons c cs ih =>
    simp only [containsSub, Bool.or_eq_false_iff] at h
    simp [beforeFirstSub, h.1, ih h.2]

lemma pySplitSecond_self (pat rest : Chars) (hne : pat ≠ [])
    (h : containsSub pat rest = false) :
    pySplitSecond pat (pat ++ rest) = rest := by
  match pat, hne with
  | p :: ps, _ =>
    have h1 : afterFirstSub (p :: ps) ((p :: ps) ++ rest) = some rest := by
      show (if (p :: ps).isPrefixOf (p :: (ps ++ rest)) then
          some ((p :: (ps ++ rest)).drop (p :: ps).length)
        else afterFirstSub (p :: ps) (ps ++ rest)) = some rest
      rw [show (p :: (ps ++ rest)) = (p :: ps) ++ rest from rfl,
        isPrefixOf_append_self]
      simp [List.drop_left]
    unfold pySplitSecond
    rw [h1]
    exact beforeFirstSub_of_not_contains _ _ h

lemma issue_prev (C : CryptoPrims) (st : Option String) (inp : IssueIn) :
    receiptField (issue_receipt C st inp).1 "prev_receipt_hash" = some (optStrJx st) := rfl

lemma issue_hash (C : CryptoPrims) (st : Option String) (inp : IssueIn) :
    receiptField (issue_receipt C st inp).1 "receipt_hash"
      = some (optStrJx (issue_receipt C st inp).2) := rfl

/-- Invariants of a chain of `issue_receipt` calls from an arbitrary
initial `_prev_hash`: as many receipts as calls; the first receipt's
`prev_receipt_hash` records the initial state; consecutive receipts
link `prev_receipt_hash` to the predecessor's `receipt_hash`; the final
state is the last receipt's hash (or the initial state when no receipt
was issued). -/
lemma chain_spec (C : CryptoPrims) (ins : List IssueIn) : ∀ st : Option String,
    (chainIssue C st ins).1.length = ins.length
    ∧ (∀ h0 : 0 < (chainIssue C st ins).1.length,
        receiptField ((chainIssue C st ins).1.get ⟨0, h0⟩) "prev_receipt_hash"
          = some (optStrJx st))
    ∧ (∀ i, ∀ h : i + 1 < (chainIssue C st ins).1.length,
        receiptField ((chainIssue C st ins).1.get ⟨i + 1, h⟩) "prev_receipt_hash"
          = receiptField ((chainIssue C st ins).1.get ⟨i, Nat.lt_of_succ_lt h⟩) "receipt_hash")
    ∧ (∀ hne : (chainIssue C st ins).1 ≠ [],
        receiptField ((chainIssue C st ins).1.getLast hne) "receipt_hash"
          = some (optStrJx (chainIssue C st ins).2))
    ∧ ((chainIssue C st ins).1 = [] → (chainIssue C st ins).2 = st) := by
  induction ins with
  | nil =>
    intro st
    refine ⟨rfl, ?_, ?_, ?_, fun _ => rfl⟩
    · intro h0; simp [chainIssue] at h0
    · intro i h; simp [chainIssue] at h
    · intro hne; simp [chainIssue] at hne
  | cons i rest ih =>
    intro st
    obtain ⟨ihlen, ihfirst, ihlink, ihlast, ihnil⟩ := ih (issue_receipt C st i).2
    have hch : chainIssue C st (i :: rest)
        = ((issue_receipt C st i).1 :: (chainIssue C (issue_receipt C st i).2 rest).1,
           (chainIssue C (issue_receipt C st i).2 rest).2) := rfl
    rw [hch]
    refine ⟨by simpa using ihlen, ?_, ?_, ?_, ?_⟩
    · intro h0
      exact issue_prev C st i
    · intro j h
      match j with
      | 0 =>
        have h' : 0 < (chainIssue C (issue_receipt C st i).2 rest).1.length := by
          simpa using h
        calc receiptField (((issue_receipt C st i).1
              :: (chainIssue C (issue_receipt C st i).2 rest).1).get ⟨1, h⟩) "prev_receipt_hash"
            = receiptField ((chainIssue C (issue_receipt C st i).2 rest).1.get ⟨0, h'⟩)
                "prev_receipt_hash" := rfl
          _ = some (optStrJx (issue_receipt C st i).2) := ihfirst h'
          _ = receiptField (((issue_receipt C st i).1
              :: (chainIssue C (issue_receipt C st i).2 rest).1).get ⟨0, Nat.lt_of_succ_lt h⟩)
                "receipt_hash" := (issue_hash C st i).symm
      | Nat.succ k =>
        have h' : k + 1 < (chainIssue C (issue_receipt C st i).2 rest).1.length := by
          simpa using h
        exact ihlink k h'
    · intro hne
      by_cases hrs : (chainIssue C (issue_receipt C st i).2 rest).1 = []
      · have hfin : (chainIssue C (issue_receipt C st i).2 rest).2
            = (issue_receipt C st i).2 := ihnil hrs
        rw [hfin]
        rw [List.getLast_congr _ _ (by rw [hrs])]
        · exact issue_hash C st i
        · simp
      · rw [List.getLast_cons hrs]
        exact ihlast hrs
    · intro hfalse
      simp at hfalse

/-- C4: every receipt returned by `issue_receipt` verifies — stripping
`receipt_hash` and `signature.sig` from a deep copy, canonicalizing and
re-hashing reproduces the embedded digest, and the Ed25519 signature
verifies over the raw digest bytes.  The cryptographic primitives are
abstract; the hypotheses state, for the digest of this very receipt,
the base64 round-trip (whose image cannot contain `base64:`, as the real
base64 alphabet has no `:`) and Ed25519 correctness for the module's key
pair. -/
theorem c4_issued_receipt_verifies (C : CryptoPrims) (st : Option String) (inp : IssueIn)
    (H : String) (B : List Nat) (E : String)
    (hH : H = C.sha256hex (canonJx (.obj (issuePayload st inp))))
    (hB : B = C.hexbytes H)
    (hE : E = C.b64encode (C.sign B))
    (h1 : containsSub "base64:".data E.data = false)
    (h2 : C.b64decode E = C.sign B)
    (h3 : C.ed_verify B (C.sign B) = true) :
    verify_receipt C (issue_receipt C st inp).1 = ⟨true, "OK", none⟩ := by
  have hKsig : objGet (objUpdate (objSet (issuePayload st inp) "receipt_hash"
        (.str ("sha256:" ++ H))) "signature" (fun j =>
          match j with
          | .obj so => .obj (objSet so "sig" (.str ("base64:" ++ E)))
          | j => j)) "signature"
      = some (.obj (.cons "algo" (.str "ed25519")
          (.cons "public_key_id" (.str "demo_key_01")
            (.cons "sig" (.str ("base64:" ++ E)) .nil)))) := rfl
  have hKhash : objGet (objUpdate (objSet (issuePayload st inp) "receipt_hash"
        (.str ("sha256:" ++ H))) "signature" (fun j =>
          match j with
          | .obj so => .obj (objSet so "sig" (.str ("base64:" ++ E)))
          | j => j)) "receipt_hash"
      = some (.str ("sha256:" ++ H)) := rfl
  have hstrip : objUpdate (objPop (objUpdate (objSet (issuePayload st inp) "receipt_hash"
        (.str ("sha256:" ++ H))) "signature" (fun j =>
          match j with
          | .obj so => .obj (objSet so "sig" (.str ("base64:" ++ E)))
          | j => j)) "receipt_hash") "signature" (fun j =>
          match j with
          | .obj so => .obj (objPop so "sig")
          | j => j)
      = issuePayload st inp := rfl
  have hrec : verify_receipt C (issue_receipt C st inp).1
      = verify_receipt C (.obj (objUpdate (objSet (issuePayload st inp) "receipt_hash"
          (.str ("sha256:" ++ H))) "signature" (fun j =>
            match j with
            | .obj so => .obj (objSet so "sig" (.str ("base64:" ++ E)))
            | j => j))) := by
    rw [hE, hB, hH]
    rfl
  rw [hrec]
  rw [verify_receipt]
  simp only [hKsig, hKhash, hstrip, objGet, String.reduceEq, reduceIte]
  rw [startswith_append "base64:", startswith_append "sha256:"]
  simp only [Bool.not_true, Bool.false_eq_true, if_false]
  rw [← hH]
  rw [if_neg (fun hcc => hcc rfl)]
  have hsig : String.mk (pySplitSecond "base64:".data ("base64:" ++ E).data) = E := by
    rw [String.data_append, pySplitSecond_self _ _ (by decide) h1]
  rw [hsig, h2, ← hB]
  simp [h3]

/-- C4 (witness): a receipt issued with the sample primitives and inputs
verifies. -/
theorem c4_issued_receipt_verifies_witness :
    verify_receipt demoCrypto (issue_receipt demoCrypto none demoIssue1).1
      = ⟨true, "OK", none⟩ :=
  c4_issued_receipt_verifies demoCrypto none demoIssue1 _ _ _ rfl rfl rfl
    (by decide) (by decide) (by decide)

/-- C6: within one process instance the receipts form a linear chain —
the first receipt's `prev_receipt_hash` is `null`, each later receipt's
`prev_receipt_hash` equals the previous receipt's `receipt_hash`, and
the chain head (`_prev_hash`) advances to the hash of the receipt issued
by each successful call (so it equals the last receipt's hash). -/
theorem c6_receipt_hash_chain (C : CryptoPrims) (ins : List IssueIn) :
    (chainIssue C none ins).1.length = ins.length
    ∧ (∀ h0 : 0 < (chainIssue C none ins).1.length,
        receiptField ((chainIssue C none ins).1.get ⟨0, h0⟩) "prev_receipt_hash"
          = some Jx.null)
    ∧ (∀ i, ∀ h : i + 1 < (chainIssue C none ins).1.length,
        receiptField ((chainIssue C none ins).1.get ⟨i + 1, h⟩) "prev_receipt_hash"
          = receiptField ((chainIssue C none ins).1.get ⟨i, Nat.lt_of_succ_lt h⟩) "receipt_hash")
    ∧ (∀ hne : (chainIssue C none ins).1 ≠ [],
        receiptField ((chainIssue C none ins).1.getLast hne) "receipt_hash"
          = some (optStrJx (chainIssue C none ins).2)) := by
  obtain ⟨a, b, c, d, _⟩ := chain_spec C ins none
  exact ⟨a, b, c, d⟩

/-- C6 (witness): a concrete two-receipt chain links as claimed. -/
theorem c6_receipt_hash_chain_witness :
    receiptField ((chainIssue demoCrypto none [demoIssue1, demoIssue2]).1.get
        ⟨0, by decide⟩) "prev_receipt_hash" = some Jx.null
    ∧ receiptField ((chainIssue demoCrypto none [demoIssue1, demoIssue2]).1.get
        ⟨0 + 1, by decide⟩) "prev_receipt_hash"
      = receiptField ((chainIssue demoCrypto none [demoIssue1, demoIssue2]).1.get
        ⟨0, Nat.lt_of_succ_lt (by decide)⟩) "receipt_hash" :=
  ⟨(c6_receipt_hash_chain demoCrypto [demoIssue1, demoIssue2]).2.1 (by decide),
   (c6_receipt_hash_chain demoCrypto [demoIssue1, demoIssue2]).2.2.1 0 (by decide)⟩

/-- C9: every receipt embeds the constant policy object
`k_min = 5, l_min = 2, dp.enabled = false`, independent of every
argument of the call (the signature of `issue_receipt` does not even
receive the policy in force). -/
theorem c9_receipt_policy_constant (C : CryptoPrims) (st : Option String) (inp : IssueIn) :
    receiptField (issue_receipt C st inp).1 "policy"
      = some (.obj (.cons "k_min" (.num 5) (.cons "l_min" (.num 2)
          (.cons "dp" (.obj (.cons "enabled" (.bool false) .nil)) .nil)))) := rfl

/-- C1: the claim asserts lattice-search safety — whenever some candidate
in the rewrite lattice is safe (`decision = ALLOW ∧ k_est ≥ k_min ∧
l_est ≥ l_min`), the candidate returned by `_pick_minimal_safe_rewrite`
is safe.  The code violates this: its ranking adds an unsafe penalty of
only `1.0` to an information loss that can reach `1.3`, so the unsafe
raw query (score `1.0 + 0.0`) sorts no later than the safe fully
generalised candidate (score `0.0 + 1.0`), and stable sorting returns
the raw query.  On the demo store, the candidate generalising both `age`
and `cp` is safe, yet the search returns the raw query, whose analysis
is `REWRITE` with `k_est = 2 < 5`. -/
theorem c1_pick_returns_unsafe_despite_safe_candidate :
    ("SELECT AVG(chol) FROM patient_records WHERE age_band = '60-69' AND sex = 1 AND cp_group = 'MediumRiskSymptoms'".data,
        ["R3'", "R2"])
      ∈ pickCandidates
          "SELECT AVG(chol) FROM patient_records WHERE age = 63 AND sex = 1 AND cp = 2".data true
    ∧ (analyze_sql
        "SELECT AVG(chol) FROM patient_records WHERE age_band = '60-69' AND sex = 1 AND cp_group = 'MediumRiskSymptoms'"
        demoDb 5 2).decision = "ALLOW"
    ∧ 5 ≤ (analyze_sql
        "SELECT AVG(chol) FROM patient_records WHERE age_band = '60-69' AND sex = 1 AND cp_group = 'MediumRiskSymptoms'"
        demoDb 5 2).k_est
    ∧ 2 ≤ (analyze_sql
        "SELECT AVG(chol) FROM patient_records WHERE age_band = '60-69' AND sex = 1 AND cp_group = 'MediumRiskSymptoms'"
        demoDb 5 2).l_est
    ∧ _pick_minimal_safe_rewrite demoDb
        "SELECT AVG(chol) FROM patient_records WHERE age = 63 AND sex = 1 AND cp = 2" 5 2 true
      = ("SELECT AVG(chol) FROM patient_records WHERE age = 63 AND sex = 1 AND cp = 2", [])
    ∧ (analyze_sql
        "SELECT AVG(chol) FROM patient_records WHERE age = 63 AND sex = 1 AND cp = 2"
        demoDb 5 2).decision = "REWRITE"
    ∧ (analyze_sql
        "SELECT AVG(chol) FROM patient_records WHERE age = 63 AND sex = 1 AND cp = 2"
        demoDb 5 2).k_est < 5 := by
  decide

/-- C2 (counterexample): in scenario S2 (store cohort 2, one distinct
`chol_level`, default policy) the analysis decision is `REWRITE`, and the
heuristic rewrite is *not* the claimed SQL that keeps `sex = 1` with
rules `[R2, R3']` — rule R4 fires (drop enabled, decision `REWRITE`,
`sex = 1` present) and removes the predicate. -/
theorem c2_s2_counterexample :
    (analyze_sql "SELECT AVG(chol) FROM patient_records WHERE age = 63 AND sex = 1 AND cp = 4"
        (.ok (fun _ => 2) (fun _ => 1)) 5 2).decision = "REWRITE"
    ∧ propose_rewrite "SELECT AVG(chol) FROM patient_records WHERE age = 63 AND sex = 1 AND cp = 4"
        (analyze_sql "SELECT AVG(chol) FROM patient_records WHERE age = 63 AND sex = 1 AND cp = 4"
          (.ok (fun _ => 2) (fun _ => 1)) 5 2) true
      ≠ ⟨"SELECT AVG(chol) FROM patient_records WHERE age_band = '60-69' AND sex = 1 AND cp_group = 'HighRiskSymptoms'",
         ["R2", "R3'"]⟩
    ∧ (propose_rewrite "SELECT AVG(chol) FROM patient_records WHERE age = 63 AND sex = 1 AND cp = 4"
        (analyze_sql "SELECT AVG(chol) FROM patient_records WHERE age = 63 AND sex = 1 AND cp = 4"
          (.ok (fun _ => 2) (fun _ => 1)) 5 2) true).applied_rules
      ≠ ["R2", "R3'"] := by
  decide

/-- C2 (amended): in scenario S2 the decision is `REWRITE` and the
heuristic rewrite generalises `age` and `cp` *and drops* `sex = 1`
(rule R4 applies after R2 and R3'), yielding
`SELECT AVG(chol) FROM patient_records WHERE age_band = '60-69' AND
cp_group = 'HighRiskSymptoms'` with `applied_rules = [R2, R3', R4]`. -/
theorem c2_s2_rewrite_drops_sex :
    (analyze_sql "SELECT AVG(chol) FROM patient_records WHERE age = 63 AND sex = 1 AND cp = 4"
        (.ok (fun _ => 2) (fun _ => 1)) 5 2).decision = "REWRITE"
    ∧ propose_rewrite "SELECT AVG(chol) FROM patient_records WHERE age = 63 AND sex = 1 AND cp = 4"
        (analyze_sql "SELECT AVG(chol) FROM patient_records WHERE age = 63 AND sex = 1 AND cp = 4"
          (.ok (fun _ => 2) (fun _ => 1)) 5 2) true
      = ⟨"SELECT AVG(chol) FROM patient_records WHERE age_band = '60-69' AND cp_group = 'HighRiskSymptoms'",
         ["R2", "R3'", "R4"]⟩ := by
  decide

/-- C3 (counterexample): the parser does *not* reject an aggregate column
outside the allowlist, nor `*` with a non-COUNT aggregate — both inputs
parse successfully, so the rejection claimed to happen at parse time does
not. -/
theorem c3_parse_accepts_unlisted_agg_col :
    parse_aggregate_query "SELECT AVG(bogus) FROM patient_records"
      = .ok ⟨"avg", "bogus", []⟩
    ∧ "bogus" ∉ ALLOWED_FILTER_COLS
    ∧ "bogus" ∉ mappedColumns
    ∧ parse_aggregate_query "SELECT AVG(*) FROM patient_records"
      = .ok ⟨"avg", "*", []⟩ := by
  decide

/-- C7 (counterexample): an accepted query whose `age` predicate has a
decimal literal analyses to `REWRITE`, but the heuristic rewrite turns
`age = 63.5` into `age_band = '60-69'.5`, which the restricted parser
rejects — the re-parse in `execute` *can* fail. -/
theorem c7_rewrite_reparse_fails :
    (parse_aggregate_query "SELECT AVG(chol) FROM patient_records WHERE age = 63.5").isOk = true
    ∧ (analyze_sql "SELECT AVG(chol) FROM patient_records WHERE age = 63.5"
        (.ok (fun _ => 2) (fun _ => 1)) 5 2).decision = "REWRITE"
    ∧ (propose_rewrite "SELECT AVG(chol) FROM patient_records WHERE age = 63.5"
        (analyze_sql "SELECT AVG(chol) FROM patient_records WHERE age = 63.5"
          (.ok (fun _ => 2) (fun _ => 1)) 5 2) true).rewritten_sql
      = "SELECT AVG(chol) FROM patient_records WHERE age_band = '60-69'.5"
    ∧ (parse_aggregate_query
        (propose_rewrite "SELECT AVG(chol) FROM patient_records WHERE age = 63.5"
          (analyze_sql "SELECT AVG(chol) FROM patient_records WHERE age = 63.5"
            (.ok (fun _ => 2) (fun _ => 1)) 5 2) true).rewritten_sql).isOk = false := by
  decide

/-- C7 (amended): for accepted queries with analysis decision `REWRITE`,
the re-parse of the heuristic rewrite in `execute` can fail, so the
blocked-on-reparse branch is reachable; string literals containing a
generalisable pattern are another witness besides decimal age
literals. -/
theorem c7_reparse_failure_reachable :
    ∃ sql : String, ∃ db : Db,
      (parse_aggregate_query sql).isOk = true
      ∧ (analyze_sql sql db 5 2).decision = "REWRITE"
      ∧ (parse_aggregate_query
          (propose_rewrite sql (analyze_sql sql db 5 2) true).rewritten_sql).isOk = false :=
  ⟨"SELECT AVG(chol) FROM patient_records WHERE chol_level = 'age = 5'",
   .ok (fun _ => 2) (fun _ => 1), by decide⟩

/-- C8 (counterexample): `re.sub` in rule R2 replaces *every* predicate
matching `age = <int>`, all with the band of the first match — not only
the first one, as the claim states. -/
theorem c8_r2_replaces_all_matches :
    (propose_rewrite "SELECT AVG(chol) FROM patient_records WHERE age = 63 AND age = 25"
        ⟨0, "LOW", 10, 2, "ALLOW", []⟩ true).rewritten_sql
      ≠ "SELECT AVG(chol) FROM patient_records WHERE age_band = '60-69' AND age = 25"
    ∧ propose_rewrite "SELECT AVG(chol) FROM patient_records WHERE age = 63 AND age = 25"
        ⟨0, "LOW", 10, 2, "ALLOW", []⟩ true
      = ⟨"SELECT AVG(chol) FROM patient_records WHERE age_band = '60-69' AND age_band = '60-69'",
         ["R2"]⟩ := by
  decide

lemma analyzeCore_spec (lower : Chars) (k l : Nat) (k_min l_min : Int) :
    (analyzeCore lower k l k_min l_min).risk_score
      = min 100 ((if (k : Int) < k_min then 45 else 0)
          + (if k_min ≤ (k : Int) ∧ k < 10 then 20 else 0)
          + (if (l : Int) < l_min then 20 else 0)
          + (if (searchKeyEqNum "age".data none lower).isSome then 10 else 0))
    ∧ (analyzeCore lower k l k_min l_min).risk_level
      = (if 70 ≤ (analyzeCore lower k l k_min l_min).risk_score then "HIGH"
         else if 35 ≤ (analyzeCore lower k l k_min l_min).risk_score then "MEDIUM"
         else "LOW")
    ∧ ((analyzeCore lower k l k_min l_min).decision = "REWRITE"
        ↔ ((k : Int) < k_min ∨ (l : Int) < l_min
            ∨ 35 ≤ (analyzeCore lower k l k_min l_min).risk_score))
    ∧ ((analyzeCore lower k l k_min l_min).decision = "REWRITE"
        ∨ (analyzeCore lower k l k_min l_min).decision = "ALLOW") := by
  by_cases h1 : (k : Int) < k_min <;>
    by_cases h2 : k < 10 <;>
      by_cases h3 : (l : Int) < l_min <;>
        by_cases h4 : (searchKeyEqNum "age".data none lower).isSome <;>
          simp [analyzeCore, h1, h2, h3, h4, le_of_not_lt] <;>
            omega

/-- C5: for every query that parses and whose store calls succeed with
`k_est = count pq` and `l_est = distinct pq`, the analysis satisfies the
risk formula: `risk_score = min(100, 45·[k < k_min] + 20·[k ≥ k_min ∧
k < 10] + 20·[l < l_min] + 10·[raw SQL contains an exact-age
predicate])`; `risk_level` is HIGH iff score ≥ 70, MEDIUM iff
35 ≤ score < 70, else LOW; `decision = REWRITE` iff `k < k_min ∨
l < l_min ∨ score ≥ 35`, else ALLOW — never BLOCK. -/
theorem c5_risk_engine_formula (sql : String) (pq : ParsedQuery)
    (count distinct : ParsedQuery → Nat) (k_min l_min : Int)
    (hp : parse_aggregate_query (String.mk (stripChars sql.data)) = .ok pq) :
    (analyze_sql sql (.ok count distinct) k_min l_min).risk_score
      = min 100 ((if (count pq : Int) < k_min then 45 else 0)
          + (if k_min ≤ (count pq : Int) ∧ count pq < 10 then 20 else 0)
          + (if (distinct pq : Int) < l_min then 20 else 0)
          + (if (searchKeyEqNum "age".data none
              ((stripChars sql.data).map Char.toLower)).isSome then 10 else 0))
    ∧ (analyze_sql sql (.ok count distinct) k_min l_min).risk_level
      = (if 70 ≤ (analyze_sql sql (.ok count distinct) k_min l_min).risk_score then "HIGH"
         else if 35 ≤ (analyze_sql sql (.ok count distinct) k_min l_min).risk_score then "MEDIUM"
         else "LOW")
    ∧ ((analyze_sql sql (.ok count distinct) k_min l_min).decision = "REWRITE"
        ↔ ((count pq : Int) < k_min ∨ (distinct pq : Int) < l_min
            ∨ 35 ≤ (analyze_sql sql (.ok count distinct) k_min l_min).risk_score))
    ∧ ((analyze_sql sql (.ok count distinct) k_min l_min).decision = "REWRITE"
        ∨ (analyze_sql sql (.ok count distinct) k_min l_min).decision = "ALLOW") := by
  have hun : analyze_sql sql (.ok count distinct) k_min l_min
      = analyzeCore ((stripChars sql.data).map Char.toLower) (count pq) (distinct pq)
          k_min l_min := by
    unfold analyze_sql
    simp only [hp]
  rw [hun]
  exact analyzeCore_spec _ _ _ _ _

/-- C5 (witness): the formula instantiated on scenario S2's first query
with a store giving `k = 2`, `l = 1`. -/
theorem c5_risk_engine_formula_witness :
    (analyze_sql "SELECT AVG(chol) FROM patient_records WHERE age = 63"
        (.ok (fun _ => 2) (fun _ => 1)) 5 2).risk_score
      = min 100 ((if ((fun (_ : ParsedQuery) => (2 : Nat)) ⟨"avg", "chol", [("age", "=", .int 63)]⟩ : Int) < 5 then 45 else 0)
          + (if (5 : Int) ≤ ((fun (_ : ParsedQuery) => (2 : Nat)) ⟨"avg", "chol", [("age", "=", .int 63)]⟩ : Int)
                ∧ (fun (_ : ParsedQuery) => (2 : Nat)) ⟨"avg", "chol", [("age", "=", .int 63)]⟩ < 10 then 20 else 0)
          + (if ((fun (_ : ParsedQuery) => (1 : Nat)) ⟨"avg", "chol", [("age", "=", .int 63)]⟩ : Int) < 2 then 20 else 0)
          + (if (searchKeyEqNum "age".data none
              ((stripChars "SELECT AVG(chol) FROM patient_records WHERE age = 63".data).map
                Char.toLower)).isSome then 10 else 0))
    ∧ (analyze_sql "SELECT AVG(chol) FROM patient_records WHERE age = 63"
        (.ok (fun _ => 2) (fun _ => 1)) 5 2).risk_level
      = (if 70 ≤ (analyze_sql "SELECT AVG(chol) FROM patient_records WHERE age = 63"
            (.ok (fun _ => 2) (fun _ => 1)) 5 2).risk_score then "HIGH"
         else if 35 ≤ (analyze_sql "SELECT AVG(chol) FROM patient_records WHERE age = 63"
            (.ok (fun _ => 2) (fun _ => 1)) 5 2).risk_score then "MEDIUM"
         else "LOW")
    ∧ ((analyze_sql "SELECT AVG(chol) FROM patient_records WHERE age = 63"
          (.ok (fun _ => 2) (fun _ => 1)) 5 2).decision = "REWRITE"
        ↔ (((fun (_ : ParsedQuery) => (2 : Nat)) ⟨"avg", "chol", [("age", "=", .int 63)]⟩ : Int) < 5
            ∨ ((fun (_ : ParsedQuery) => (1 : Nat)) ⟨"avg", "chol", [("age", "=", .int 63)]⟩ : Int) < 2
            ∨ 35 ≤ (analyze_sql "SELECT AVG(chol) FROM patient_records WHERE age = 63"
                (.ok (fun _ => 2) (fun _ => 1)) 5 2).risk_score))
    ∧ ((analyze_sql "SELECT AVG(chol) FROM patient_records WHERE age = 63"
          (.ok (fun _ => 2) (fun _ => 1)) 5 2).decision = "REWRITE"
        ∨ (analyze_sql "SELECT AVG(chol) FROM patient_records WHERE age = 63"
            (.ok (fun _ => 2) (fun _ => 1)) 5 2).decision = "ALLOW") :=
  c5_risk_engine_formula "SELECT AVG(chol) FROM patient_records WHERE age = 63"
    ⟨"avg", "chol", [("age", "=", .int 63)]⟩ (fun _ => 2) (fun _ => 1) 5 2 (by decide)

/-- C10: with no database session (`db = None`) the analysis proceeds
with assumed estimates `k_est = 10`, `l_est = 2`, reports no
`DB_NOT_READY` factor, and under the default policy every parseable
query gets decision ALLOW with a risk score of at most 10. -/
theorem c10_analyze_without_db (sql : String) (pq : ParsedQuery)
    (hp : parse_aggregate_query (String.mk (stripChars sql.data)) = .ok pq) :
    (analyze_sql sql Db.none 5 2).decision = "ALLOW"
    ∧ (analyze_sql sql Db.none 5 2).risk_score ≤ 10
    ∧ (analyze_sql sql Db.none 5 2).k_est = 10
    ∧ (analyze_sql sql Db.none 5 2).l_est = 2
    ∧ ∀ f ∈ (analyze_sql sql Db.none 5 2).factors, f.code ≠ "DB_NOT_READY" := by
  have hun : analyze_sql sql Db.none 5 2
      = analyzeCore ((stripChars sql.data).map Char.toLower) 10 2 5 2 := by
    unfold analyze_sql
    simp only [hp]
  rw [hun]
  by_cases h4 : (searchKeyEqNum "age".data none
      ((stripChars sql.data).map Char.toLower)).isSome <;>
    simp [analyzeCore, h4, Factor.code]

/-- C10 (witness): the no-database defaults on a parseable query with an
exact-age predicate. -/
theorem c10_analyze_without_db_witness :
    (analyze_sql "SELECT AVG(chol) FROM patient_records WHERE age = 63" Db.none 5 2).decision
      = "ALLOW"
    ∧ (analyze_sql "SELECT AVG(chol) FROM patient_records WHERE age = 63" Db.none 5 2).risk_score
      ≤ 10
    ∧ (analyze_sql "SELECT AVG(chol) FROM patient_records WHERE age = 63" Db.none 5 2).k_est = 10
    ∧ (analyze_sql "SELECT AVG(chol) FROM patient_records WHERE age = 63" Db.none 5 2).l_est = 2
    ∧ ∀ f ∈ (analyze_sql "SELECT AVG(chol) FROM patient_records WHERE age = 63"
        Db.none 5 2).factors, f.code ≠ "DB_NOT_READY" :=
  c10_analyze_without_db "SELECT AVG(chol) FROM patient_records WHERE age = 63"
    ⟨"avg", "chol", [("age", "=", .int 63)]⟩ (by decide)

lemma parseCond_col_mem (part : Chars) (f : String × String × SqlValue)
    (h : parseCond part = .ok f) : f.1 ∈ ALLOWED_FILTER_COLS := by
  simp only [parseCond] at h
  split at h
  · simp at h
  · split at h
    · simp at h
    · split at h
      · simp at h
      · split at h
        · simp at h
        · next hncol =>
          split at h
          · simp at h
          · split at h
            · simp at h
            · next v hv =>
              cases h
              simpa using hncol

lemma parseConds_col_mem (parts : List Chars) (fs : List (String × String × SqlValue))
    (h : parseConds parts = .ok fs) : ∀ f ∈ fs, f.1 ∈ ALLOWED_FILTER_COLS := by
  induction parts generalizing fs with
  | nil =>
    simp only [parseConds] at h
    cases h
    simp
  | cons p ps ih =>
    simp only [parseConds] at h
    split at h
    · simp at h
    · next f1 hf1 =>
      split at h
      · simp at h
      · next fs1 hfs1 =>
        cases h
        intro f hf
        rcases List.mem_cons.mp hf with rfl | hmem
        · exact parseCond_col_mem p f hf1
        · exact ih fs1 hfs1 f hmem

/-- C3 (amended): the parser does not validate the aggregate column at
parse time; what holds is that every `ParsedQuery` returned by
`parse_aggregate_query` has all *filter* columns in the allowlist, while
an aggregate column on which `hasattr(PatientRecord, ·)` fails
(including `*` with a non-COUNT aggregate) is rejected only later, by
the column resolution of `execute_aggregate` — for every `hasattr`
oracle, since the attribute set itself is interpreter-defined. -/
theorem c3_filters_allowlisted_execute_rejects_agg_col (sql : String) (pq : ParsedQuery)
    (hasAttr : String → Bool) (hp : parse_aggregate_query sql = .ok pq) :
    (∀ f ∈ pq.filters, f.1 ∈ ALLOWED_FILTER_COLS)
    ∧ (hasAttr pq.agg_col = false → ¬(pq.agg_fn = "count" ∧ pq.agg_col = "*") →
        execute_aggregate_check hasAttr pq
          = .error ("Unknown column: " ++ pq.agg_col)) := by
  constructor
  · simp only [parse_aggregate_query] at hp
    split at hp
    · simp at hp
    · split at hp
      · simp at hp
      · split at hp
        · simp at hp
        · split at hp
          · simp at hp
          · split at hp
            · cases hp; simp
            · split at hp
              · simp at hp
              · split at hp
                · simp at hp
                · next fs hfs =>
                  cases hp
                  exact parseConds_col_mem _ _ hfs
  · intro hcol hstar
    simp only [execute_aggregate_check, _col_expr_check]
    rw [if_neg hstar, if_neg (show ¬hasAttr pq.agg_col = true by simp [hcol])]
    rfl

/-- The parse result of `SELECT AVG(*) FROM patient_records WHERE age = 63`. -/
def starPq : ParsedQuery := ⟨"avg", "*", [("age", "=", .int 63)]⟩

/-- C3 (amended, witness): `SELECT AVG(*) …` parses (despite `*` with a
non-COUNT aggregate); its filter column is allowlisted and, with the
sample `hasattr` verdict (on which `*` is no attribute), its execution
is rejected at the column-resolution step. -/
theorem c3_filters_allowlisted_execute_rejects_agg_col_witness :
    (∀ f ∈ starPq.filters, f.1 ∈ ALLOWED_FILTER_COLS)
    ∧ (demoHasAttr starPq.agg_col = false →
        ¬(starPq.agg_fn = "count" ∧ starPq.agg_col = "*") →
        execute_aggregate_check demoHasAttr starPq
          = .error ("Unknown column: " ++ starPq.agg_col)) :=
  c3_filters_allowlisted_execute_rejects_agg_col
    "SELECT AVG(*) FROM patient_records WHERE age = 63" starPq demoHasAttr (by decide)

/-!  ### Lemmas for the amended C8 family statement  -/

lemma isDigitChar_toNat (c : Char) (h : isDigitChar c = true) :
    48 ≤ c.toNat ∧ c.toNat ≤ 57 := by
  simp only [isDigitChar, Char.isDigit, Bool.and_eq_true, decide_eq_true_eq] at h
  exact h

lemma isDigitChar_toLower (c : Char) (h : isDigitChar c = true) : c.toLower = c := by
  have hb := isDigitChar_toNat c h
  unfold Char.toLower
  rw [if_neg (by omega)]

lemma isDigitChar_toLower_ne (c : Char) (h : isDigitChar c = true)
    (d : Char) (hd : d.toNat < 48 ∨ 57 < d.toNat) : (c.toLower = d) = False := by
  have hb := isDigitChar_toNat c h
  rw [isDigitChar_toLower c h]
  simp only [eq_iff_iff, iff_false]
  intro heq
  have : c.toNat = d.toNat := by rw [heq]
  omega

lemma isDigitChar_not_space (c : Char) (h : isDigitChar c = true) :
    isPySpace c = false := by
  have hb := isDigitChar_toNat c h
  simp only [isPySpace, Bool.or_eq_false_iff, decide_eq_false_iff_not]
  refine ⟨⟨⟨⟨⟨?_, ?_⟩, ?_⟩, ?_⟩, ?_⟩, ?_⟩ <;>
    (intro heq; have := congrArg Char.toNat heq; simp at this; omega)

lemma isDigitChar_isWord (c : Char) (h : isDigitChar c = true) :
    isWordChar c = true := by
  simp [isWordChar, Char.isAlphanum]
  simp only [isDigitChar] at h
  tauto

lemma digitChar_isDigit (d : Nat) (h : d < 10) : isDigitChar (digitChar d) = true := by
  interval_cases d <;> decide

lemma natToCharsGo_digits (f n : Nat) : (natToCharsGo f n).all isDigitChar = true := by
  induction f generalizing n with
  | zero => rfl
  | succ f ih =>
    unfold natToCharsGo
    split
    · next hlt => simp [digitChar_isDigit _ hlt]
    · simp only [List.all_append, Bool.and_eq_true]
      exact ⟨ih _, by simp [digitChar_isDigit (n % 10) (Nat.mod_lt _ (by omega))]⟩

lemma natToChars_digits (n : Nat) : (natToChars n).all isDigitChar = true :=
  natToCharsGo_digits _ _

lemma takeWhile_append_all {p : Char → Bool} (ds t : Chars) (h : ds.all p = true) :
    (ds ++ t).takeWhile p = ds ++ t.takeWhile p := by
  induction ds with
  | nil => simp
  | cons d ds ih =>
    simp only [List.all_cons, Bool.and_eq_true] at h
    simp [List.takeWhile_cons, h.1, ih h.2]

lemma dropWhile_append_all {p : Char → Bool} (ds t : Chars) (h : ds.all p = true) :
    (ds ++ t).dropWhile p = t.dropWhile p := by
  induction ds with
  | nil => simp
  | cons d ds ih =>
    simp only [List.all_cons, Bool.and_eq_true] at h
    simp [List.dropWhile_cons, h.1, ih h.2]

lemma stripChars_eq_self (s : Chars) (c0 cn : Char)
    (h0 : s.head? = some c0) (hc0 : isPySpace c0 = false)
    (hn : s.getLast? = some cn) (hcn : isPySpace cn = false) :
    stripChars s = s := by
  unfold stripChars
  have h1 : s.dropWhile isPySpace = s := by
    cases s with
    | nil => rfl
    | cons a l =>
      simp only [List.head?_cons, Option.some.injEq] at h0
      subst h0
      simp [List.dropWhile_cons, hc0]
  rw [h1]
  have h2 : s.reverse.dropWhile isPySpace = s.reverse := by
    cases hr : s.reverse with
    | nil => rfl
    | cons a l =>
      have : s.reverse.head? = some cn := by
        rw [List.head?_reverse]
        exact hn
      rw [hr] at this
      simp only [List.head?_cons, Option.some.injEq] at this
      subst this
      simp [List.dropWhile_cons, hcn]
  rw [h2, List.reverse_reverse]

lemma matchLit_head_ne (p : Char) (ps : Chars) (c : Char) (cs : Chars)
    (h : (c.toLower = p.toLower) = False) : matchLit (p :: ps) (c :: cs) = none := by
  simp [matchLit, h]

lemma matchLit_length_le (p : Chars) : ∀ s r, matchLit p s = some r → r.length ≤ s.length := by
  induction p with
  | nil => intro s r h; simp only [matchLit, Option.some.injEq] at h; subst h; rfl
  | cons p ps ih =>
    intro s r h
    cases s with
    | nil => simp [matchLit] at h
    | cons c cs =>
      simp only [matchLit] at h
      split at h
      · have := ih cs r h
        simp
        omega
      · simp at h

lemma length_dropWhile_le {p : Char → Bool} (l : Chars) :
    (l.dropWhile p).length ≤ l.length := by
  induction l with
  | nil => simp
  | cons c cs ih =>
    rw [List.dropWhile_cons]
    split
    · exact le_trans ih (by simp)
    · simp

lemma keyEqNumAt_none_of_matchLit (key : Chars) (pre : Option Char) (s : Chars)
    (h : matchLit key s = none) : keyEqNumAt key pre s = none := by
  unfold keyEqNumAt
  cases hb : boundaryOK pre <;> simp [hb, h]

lemma keyEqNumAt_rest_le (key : Chars) (hkey : key ≠ []) (pre : Option Char)
    (c : Char) (cs : Chars) (v : Nat) (lc : Char) (rest : Chars)
    (h : keyEqNumAt key pre (c :: cs) = some (v, lc, rest)) : rest.length ≤ cs.length := by
  unfold keyEqNumAt at h
  split at h
  · simp at h
  · split at h
    · simp at h
    · next r1 hml =>
      split at h
      · next r3 heq =>
        split at h
        · simp at h
        · split at h
          · simp only [Option.some.injEq, Prod.mk.injEq] at h
            obtain ⟨-, -, h3⟩ := h
            have hr1 : r1.length ≤ cs.length := by
              cases key with
              | nil => exact absurd rfl hkey
              | cons p ps =>
                simp only [matchLit] at hml
                split at hml
                · have := matchLit_length_le ps cs r1 hml
                  omega
                · simp at hml
            have hd1 : (r1.dropWhile isPySpace).length ≤ r1.length :=
              length_dropWhile_le _
            have hr3 : r3.length + 1 = (r1.dropWhile isPySpace).length := by
              rw [heq]
              rfl
            have hd2 : ((r3.dropWhile isPySpace).dropWhile isDigitChar).length
                ≤ r3.length := le_trans (length_dropWhile_le _) (length_dropWhile_le _)
            rw [← h3]
            omega
          · simp at h
      · simp at h

lemma subGo_stable (key repl : Chars) (hkey : key ≠ []) :
    ∀ f g (pre : Option Char) (s : Chars), s.length ≤ f → s.length ≤ g →
      subKeyEqNumGo key repl f pre s = subKeyEqNumGo key repl g pre s := by
  intro f
  induction f with
  | zero =>
    intro g pre s hf _
    have : s = [] := List.length_eq_zero.mp (Nat.le_zero.mp hf)
    subst this
    cases g <;> rfl
  | succ f ih =>
    intro g pre s hf hg
    cases s with
    | nil => cases g <;> rfl
    | cons c cs =>
      cases g with
      | zero => simp at hg
      | succ g =>
        show (match keyEqNumAt key pre (c :: cs) with
          | some (_, lastc, rest) => repl ++ subKeyEqNumGo key repl f (some lastc) rest
          | none => c :: subKeyEqNumGo key repl f (some c) cs)
          = (match keyEqNumAt key pre (c :: cs) with
          | some (_, lastc, rest) => repl ++ subKeyEqNumGo key repl g (some lastc) rest
          | none => c :: subKeyEqNumGo key repl g (some c) cs)
        cases hm : keyEqNumAt key pre (c :: cs) with
        | some t =>
          obtain ⟨v, lc, rest⟩ := t
          have hrest := keyEqNumAt_rest_le key hkey pre c cs v lc rest hm
          simp only []
          rw [ih g (some lc) rest (by simp at hf; omega) (by simp at hg; omega)]
        | none =>
          simp only []
          rw [ih g (some c) cs (by simp at hf; omega) (by simp at hg; omega)]

lemma subKeyEqNum_eq_subFullKey (key repl s : Chars) :
    subKeyEqNum key repl s = subFullKey key repl none s := rfl

lemma subFullKey_nil (key repl : Chars) (pre : Option Char) :
    subFullKey key repl pre [] = [] := rfl

lemma subFullKey_nomatch (key repl : Chars) (pre : Option Char) (c : Char) (cs : Chars)
    (h : keyEqNumAt key pre (c :: cs) = none) :
    subFullKey key repl pre (c :: cs) = c :: subFullKey key repl (some c) cs := by
  show subKeyEqNumGo key repl (cs.length + 1) pre (c :: cs) = _
  simp only [subKeyEqNumGo, h]
  rfl

lemma subFullKey_match (key repl : Chars) (hkey : key ≠ []) (pre : Option Char)
    (c : Char) (cs : Chars) (v : Nat) (lc : Char) (rest : Chars)
    (h : keyEqNumAt key pre (c :: cs) = some (v, lc, rest)) :
    subFullKey key repl pre (c :: cs) = repl ++ subFullKey key repl (some lc) rest := by
  show subKeyEqNumGo key repl (cs.length + 1) pre (c :: cs) = _
  simp only [subKeyEqNumGo, h]
  rw [subGo_stable key repl hkey cs.length rest.length (some lc) rest
    (keyEqNumAt_rest_le key hkey pre c cs v lc rest h) le_rfl]
  rfl

lemma keyEqNumAt_age_digits (pre : Option Char) (ds t : Chars)
    (hpre : boundaryOK pre = true) (h1 : ds ≠ []) (h2 : ds.all isDigitChar = true)
    (ht : t = [] ∨ ∃ t', t = ' ' :: t') :
    keyEqNumAt "age".data pre ("age = ".data ++ ds ++ t)
      = some (digitsToNat ds, ds.getLastD '0', t) := by
  obtain ⟨d, ds', rfl⟩ : ∃ d ds', ds = d :: ds' := by
    cases ds with
    | nil => exact absurd rfl h1
    | cons d ds' => exact ⟨d, ds', rfl⟩
  have hd : isDigitChar d = true := by
    simp only [List.all_cons, Bool.and_eq_true] at h2
    exact h2.1
  have hml : matchLit "age".data ("age = ".data ++ (d :: ds') ++ t)
      = some (' ' :: '=' :: ' ' :: ((d :: ds') ++ t)) := rfl
  have hdw : (' ' :: '=' :: ' ' :: ((d :: ds') ++ t)).dropWhile isPySpace
      = '=' :: ' ' :: ((d :: ds') ++ t) := rfl
  have hr4 : (' ' :: ((d :: ds') ++ t)).dropWhile isPySpace = (d :: ds') ++ t := by
    show (((d :: ds') ++ t)).dropWhile isPySpace = (d :: ds') ++ t
    simp [List.dropWhile_cons, isDigitChar_not_space d hd]
  have htw : ((d :: ds') ++ t).takeWhile isDigitChar = d :: ds' := by
    rw [takeWhile_append_all _ _ h2]
    rcases ht with rfl | ⟨t', rfl⟩
    · simp
    · simp [List.takeWhile_cons, show isDigitChar ' ' = false from rfl]
  have hdrw : ((d :: ds') ++ t).dropWhile isDigitChar = t := by
    rw [dropWhile_append_all _ _ h2]
    rcases ht with rfl | ⟨t', rfl⟩
    · simp
    · simp [List.dropWhile_cons, show isDigitChar ' ' = false from rfl]
  have hnw : noWordAhead t = true := by
    rcases ht with rfl | ⟨t', rfl⟩
    · rfl
    · rfl
  unfold keyEqNumAt
  rw [hpre]
  simp only [Bool.not_true, Bool.false_eq_true, if_false, hml, hdw, hr4, htw, hdrw, hnw]
  simp [h1]

lemma searchKeyEqNum_cons_none (key : Chars) (pre : Option Char) (c : Char) (cs : Chars)
    (h : keyEqNumAt key pre (c :: cs) = none) :
    searchKeyEqNum key pre (c :: cs) = searchKeyEqNum key (some c) cs := by
  simp [searchKeyEqNum, h]

lemma searchKeyEqNum_cons_some (key : Chars) (pre : Option Char) (c : Char) (cs : Chars)
    (v : Nat) (lc : Char) (rest : Chars)
    (h : keyEqNumAt key pre (c :: cs) = some (v, lc, rest)) :
    searchKeyEqNum key pre (c :: cs) = some v := by
  simp [searchKeyEqNum, h]

lemma searchKeyEqNum_none_of_all (k0 : Char) (ks : Chars) (s : Chars)
    (h : ∀ c ∈ s, (c.toLower = k0.toLower) = False) :
    ∀ pre, searchKeyEqNum (k0 :: ks) pre s = none := by
  induction s with
  | nil => intro pre; rfl
  | cons c cs ih =>
    intro pre
    have hm : keyEqNumAt (k0 :: ks) pre (c :: cs) = none :=
      keyEqNumAt_none_of_matchLit _ _ _
        (matchLit_head_ne k0 ks c cs (h c (by simp)))
    rw [searchKeyEqNum_cons_none _ _ _ _ hm]
    exact ih (fun c hc => h c (by simp [hc])) (some c)

lemma searchSelCholFrom_none_of_all (s : Chars)
    (h : ∀ c ∈ s, (c.toLower = 's') = False) :
    searchSelCholFrom s = false := by
  induction s with
  | nil => rfl
  | cons c cs ih =>
    have hm : matchLit "select".data (c :: cs) = none :=
      matchLit_head_ne 's' "elect".data c cs (h c (by simp))
    simp only [searchSelCholFrom, selCholFromCore, hm, Bool.false_or]
    exact ih (fun c' hc' => h c' (by simp [hc']))

lemma searchKeyEqNum_head_some (key : Chars) (pre : Option Char) (s : Chars)
    (v : Nat) (lc : Char) (rest : Chars) (hs : s ≠ [])
    (h : keyEqNumAt key pre s = some (v, lc, rest)) :
    searchKeyEqNum key pre s = some v := by
  cases s with
  | nil => exact absurd rfl hs
  | cons c cs => exact searchKeyEqNum_cons_some key pre c cs v lc rest h

lemma subFullKey_match_ne (key repl : Chars) (hkey : key ≠ []) (pre : Option Char)
    (s : Chars) (v : Nat) (lc : Char) (rest : Chars) (hs : s ≠ [])
    (h : keyEqNumAt key pre s = some (v, lc, rest)) :
    subFullKey key repl pre s = repl ++ subFullKey key repl (some lc) rest := by
  cases s with
  | nil => exact absurd rfl hs
  | cons c cs => exact subFullKey_match key repl hkey pre c cs v lc rest h

lemma subKeyEqNum_age_family (repl ds es : Chars)
    (hd1 : ds ≠ []) (hd2 : ds.all isDigitChar = true)
    (he1 : es ≠ []) (he2 : es.all isDigitChar = true) :
    subKeyEqNum "age".data repl ("age = ".data ++ ds ++ " AND age = ".data ++ es)
      = repl ++ " AND ".data ++ repl := by
  have hm1 := keyEqNumAt_age_digits none ds (" AND age = ".data ++ es) rfl hd1 hd2
    (Or.inr ⟨"AND age = ".data ++ es, rfl⟩)
  have hm2 := keyEqNumAt_age_digits (some ' ') es [] rfl he1 he2 (Or.inl rfl)
  rw [List.append_nil] at hm2
  rw [subKeyEqNum_eq_subFullKey, List.append_assoc]
  rw [subFullKey_match_ne "age".data repl (by decide) none _ _ _ _ (by simp) hm1]
  rw [show (" AND age = ".data ++ es : Chars)
      = ' ' :: 'A' :: 'N' :: 'D' :: ' ' :: ("age = ".data ++ es) from rfl]
  rw [subFullKey_nomatch _ _ _ _ _ (keyEqNumAt_none_of_matchLit "age".data
    (some (ds.getLastD '0')) (' ' :: 'A' :: 'N' :: 'D' :: ' ' :: ("age = ".data ++ es)) rfl)]
  rw [subFullKey_nomatch _ _ _ _ _ (keyEqNumAt_none_of_matchLit "age".data
    (some ' ') ('A' :: 'N' :: 'D' :: ' ' :: ("age = ".data ++ es)) rfl)]
  rw [subFullKey_nomatch _ _ _ _ _ (keyEqNumAt_none_of_matchLit "age".data
    (some 'A') ('N' :: 'D' :: ' ' :: ("age = ".data ++ es)) rfl)]
  rw [subFullKey_nomatch _ _ _ _ _ (keyEqNumAt_none_of_matchLit "age".data
    (some 'N') ('D' :: ' ' :: ("age = ".data ++ es)) rfl)]
  rw [subFullKey_nomatch _ _ _ _ _ (keyEqNumAt_none_of_matchLit "age".data
    (some 'D') (' ' :: ("age = ".data ++ es)) rfl)]
  rw [subFullKey_match_ne "age".data repl (by decide) _ _ _ _ _ (by simp) hm2]
  rw [subFullKey_nil, List.append_nil]
  show repl ++ (" AND ".data ++ repl) = repl ++ " AND ".data ++ repl
  exact (List.append_assoc _ _ _).symm

lemma searchKeyEqNum_age_family (ds es : Chars)
    (hd1 : ds ≠ []) (hd2 : ds.all isDigitChar = true) :
    searchKeyEqNum "age".data none ("age = ".data ++ ds ++ " AND age = ".data ++ es)
      = some (digitsToNat ds) := by
  have hm1 := keyEqNumAt_age_digits none ds (" AND age = ".data ++ es) rfl hd1 hd2
    (Or.inr ⟨"AND age = ".data ++ es, rfl⟩)
  rw [List.append_assoc]
  exact searchKeyEqNum_head_some _ _ _ _ _ _ (by simp) hm1

lemma data_mk (l : Chars) : (String.mk l).data = l := rfl

lemma age_band_chars (a w : Nat) :
    ∀ c ∈ (_age_to_band a w).data, isDigitChar c = true ∨ c = '-' := by
  intro c hc
  simp only [_age_to_band, data_mk, List.mem_append, List.mem_cons] at hc
  rcases hc with hc | hc | hc
  · exact Or.inl (by simpa using (List.all_eq_true.mp (natToChars_digits _)) c hc)
  · exact Or.inr hc
  · exact Or.inl (by simpa using (List.all_eq_true.mp (natToChars_digits _)) c hc)

lemma family_no_s (ds es : Chars)
    (hd2 : ds.all isDigitChar = true) (he2 : es.all isDigitChar = true) :
    ∀ c ∈ "age = ".data ++ ds ++ " AND age = ".data ++ es, (c.toLower = 's') = False := by
  intro c hc
  simp only [List.append_assoc, List.mem_append,
    show "age = ".data = ['a', 'g', 'e', ' ', '=', ' '] from rfl,
    show " AND age = ".data
      = [' ', 'A', 'N', 'D', ' ', 'a', 'g', 'e', ' ', '=', ' '] from rfl,
    List.mem_cons, List.not_mem_nil, or_false] at hc
  rcases hc with hc | hc | hc | hc
  · rcases hc with rfl | rfl | rfl | rfl | rfl | rfl <;> exact eq_false (by decide)
  · exact isDigitChar_toLower_ne c
      (by simpa using (List.all_eq_true.mp hd2) c hc) 's' (by decide)
  · rcases hc with rfl | rfl | rfl | rfl | rfl | rfl | rfl | rfl | rfl | rfl | rfl <;>
      exact eq_false (by decide)
  · exact isDigitChar_toLower_ne c
      (by simpa using (List.all_eq_true.mp he2) c hc) 's' (by decide)

lemma result_no_c (band : Chars)
    (hband : ∀ c ∈ band, isDigitChar c = true ∨ c = '-') :
    ∀ c ∈ ("age_band = '".data ++ band ++ ['\''])
        ++ " AND ".data ++ ("age_band = '".data ++ band ++ ['\'']),
      (c.toLower = 'c') = False := by
  intro c hc
  simp only [List.append_assoc, List.mem_append,
    show "age_band = '".data
      = ['a', 'g', 'e', '_', 'b', 'a', 'n', 'd', ' ', '=', ' ', '\''] from rfl,
    show " AND ".data = [' ', 'A', 'N', 'D', ' '] from rfl,
    List.mem_cons, List.mem_singleton, List.not_mem_nil, or_false] at hc
  have hlit : ∀ x : Char,
      x ∈ ['a', 'g', 'e', '_', 'b', 'a', 'n', 'd', ' ', '=', ' ', '\'']
      → (x.toLower = 'c') = False := by
    intro x hx
    fin_cases hx <;> exact eq_false (by decide)
  have hb : ∀ x ∈ band, (x.toLower = 'c') = False := by
    intro x hx
    rcases hband x hx with hdig | rfl
    · exact isDigitChar_toLower_ne x hdig 'c' (by decide)
    · exact eq_false (by decide)
  rcases hc with hc | hc | hc | hc | hc | hc | hc
  · exact hlit c (by simpa using hc)
  · exact hb c hc
  · subst hc; exact eq_false (by decide)
  · rcases hc with rfl | rfl | rfl | rfl | rfl <;> exact eq_false (by decide)
  · exact hlit c (by simpa using hc)
  · exact hb c hc
  · subst hc; exact eq_false (by decide)

lemma stripChars_family (ds es : Chars) (he1 : es ≠ [])
    (he2 : es.all isDigitChar = true) :
    stripChars ("age = ".data ++ ds ++ " AND age = ".data ++ es)
      = "age = ".data ++ ds ++ " AND age = ".data ++ es := by
  refine stripChars_eq_self _ 'a' (es.getLast he1) rfl rfl ?_ ?_
  · rw [List.getLast?_append_of_ne_nil _ he1]
    exact List.getLast?_eq_getLast es he1
  · exact isDigitChar_not_space _
      (by simpa using (List.all_eq_true.mp he2) _ (List.getLast_mem he1))

lemma r1Stage_id (s : Chars) (acc : List String)
    (h : searchSelCholFrom s = false) : r1Stage (s, acc) = (s, acc) := by
  unfold r1Stage
  simp [h]

lemma r2Stage_act (s : Chars) (acc : List String) (age : Nat)
    (h : searchKeyEqNum "age".data none s = some age) :
    r2Stage (s, acc) = (subKeyEqNum "age".data
      ("age_band = '".data ++ (_age_to_band age).data ++ ['\'']) s,
      acc ++ ["R2"]) := by
  unfold r2Stage
  simp [h]

lemma r3Stage_id (s : Chars) (acc : List String)
    (h : searchKeyEqNum "cp".data none s = none) : r3Stage (s, acc) = (s, acc) := by
  unfold r3Stage
  simp [h]

lemma r4Stage_benign (e : Bool) (s : Chars) (acc : List String) :
    r4Stage ⟨0, "LOW", 10, 2, "ALLOW", []⟩ e (s, acc) = (s, acc) := by
  unfold r4Stage
  simp

/-- C8 (amended family form): on `age = <int> AND age = <int>`, R2 replaces
*every* `age = <int>` predicate, and each replacement carries the band of
the *first* match; the second value is discarded. -/
theorem c8_r2_first_band_everywhere (ds es : Chars)
    (hd1 : ds ≠ []) (hd2 : ds.all isDigitChar = true)
    (he1 : es ≠ []) (he2 : es.all isDigitChar = true) :
    propose_rewrite (String.mk ("age = ".data ++ ds ++ " AND age = ".data ++ es))
      ⟨0, "LOW", 10, 2, "ALLOW", []⟩ true
      = ⟨String.mk (("age_band = '".data ++ (_age_to_band (digitsToNat ds)).data
            ++ ['\'']) ++ " AND ".data
            ++ ("age_band = '".data ++ (_age_to_band (digitsToNat ds)).data
            ++ ['\''])),
        ["R2"]⟩ := by
  have hstrip :
      stripChars (String.mk ("age = ".data ++ ds ++ " AND age = ".data ++ es)).data
        = "age = ".data ++ ds ++ " AND age = ".data ++ es :=
    stripChars_family ds es he1 he2
  unfold propose_rewrite
  rw [hstrip]
  rw [r1Stage_id _ _ (searchSelCholFrom_none_of_all _ (family_no_s ds es hd2 he2))]
  rw [r2Stage_act _ _ _ (searchKeyEqNum_age_family ds es hd1 hd2)]
  rw [subKeyEqNum_age_family _ ds es hd1 hd2 he1 he2]
  rw [r3Stage_id _ _ (searchKeyEqNum_none_of_all 'c' ['p'] _
    (result_no_c _ (age_band_chars (digitsToNat ds) 10)) none)]
  rw [r4Stage_benign]
  rfl

theorem c8_r2_first_band_everywhere_witness :
    propose_rewrite "age = 63 AND age = 25" ⟨0, "LOW", 10, 2, "ALLOW", []⟩ true
      = ⟨"age_band = '60-69' AND age_band = '60-69'", ["R2"]⟩ := by
  have h := c8_r2_first_band_everywhere ['6', '3'] ['2', '5']
    (by decide) (by decide) (by decide) (by decide)
  exact h

end PrivacyGuard
